import Mathlib

/-
Verification of the huntstack waterfowl-survey extraction core.

This file shallowly embeds the extraction pipeline of
apps/scrapers-python/huntstack_scrapers (the format-specific parsers,
the species resolver, the LLM-output validation stage and the shared
ParseResult record) and proves/refutes the specification claims about it.

Modelling conventions:
  * Python strings are List Char (all data in scope is ASCII except a
    few fixed curly-apostrophe species names, which are embedded as the
    corresponding unicode characters).
  * Python regular expressions are embedded via a small backtracking
    engine (RE below) with Python re semantics: leftmost search,
    greedy/lazy repetition, ordered alternation, capture groups, and
    MULTILINE/DOTALL variants of the anchors and the dot.  Each pattern
    of the source is transcribed node by node.
  * External effects are parameters: pdfplumber text extraction becomes
    an Option (List Char) argument (none = extraction raised or the PDF
    had no pages), a Scrapy HTML response becomes the list of cell
    texts of its table rows, an Excel workbook becomes a list of named
    sheets of cells, and the LLM response becomes an Option of the
    parsed JSON payload.
  * Python dicts are insertion-ordered association lists with
    overwrite-in-place update, matching dict semantics.
  * Python int() is modelled including sign and underscore handling;
    machine integers do not arise (Python ints are unbounded).
-/

namespace Huntstack

/-! ## Python string primitives -/

/-- Python str.isspace-relevant whitespace (the characters str.strip and
the re class backslash-s treat as whitespace in the ASCII range). -/
def pyIsSpace (c : Char) : Bool :=
  c = ' ' || c = '\t' || c = '\n' || c = '\r' || c = '\x0b' || c = '\x0c'

def pyIsDigit (c : Char) : Bool := '0' ≤ c && c ≤ '9'

def pyIsUpperAZ (c : Char) : Bool := 'A' ≤ c && c ≤ 'Z'

def pyIsLowerAZ (c : Char) : Bool := 'a' ≤ c && c ≤ 'z'

def pyIsAlphaAZ (c : Char) : Bool := pyIsUpperAZ c || pyIsLowerAZ c

/-- Word character for the re class backslash-w (ASCII range). -/
def pyIsWord (c : Char) : Bool := pyIsAlphaAZ c || pyIsDigit c || c = '_'

/-- Python str.lower (ASCII case mapping; all source data is ASCII letters). -/
def pyLower (s : List Char) : List Char := s.map Char.toLower

/-- Python str.upper (ASCII case mapping). -/
def pyUpper (s : List Char) : List Char := s.map Char.toUpper

/-- Python str.strip(): remove leading and trailing whitespace. -/
def pyStrip (s : List Char) : List Char :=
  ((s.dropWhile pyIsSpace).reverse.dropWhile pyIsSpace).reverse

/-- Python str.rstrip(checked char). -/
def pyRstripChar (c : Char) (s : List Char) : List Char :=
  (s.reverse.dropWhile (· = c)).reverse

/-- Digit-run accumulator for pyInt: after an initial digit, accept
digits and single underscores strictly between digits, as Python int()
does. -/
def pyIntNatGo : List Char → Nat → Option Nat
  | [], acc => some acc
  | c :: cs, acc =>
    if pyIsDigit c then pyIntNatGo cs (acc * 10 + (c.toNat - 48))
    else if c = '_' then
      match cs with
      | [] => none
      | d :: ds =>
        if pyIsDigit d then pyIntNatGo ds (acc * 10 + (d.toNat - 48)) else none
    else none

def pyIntNat : List Char → Option Nat
  | [] => none
  | c :: cs => if pyIsDigit c then pyIntNatGo cs (c.toNat - 48) else none

/-- Python int(str): strip whitespace, optional sign, digits with
underscore group separators; anything else raises ValueError (none). -/
def pyInt (s : List Char) : Option Int :=
  match pyStrip s with
  | '+' :: rest => (pyIntNat rest).map Int.ofNat
  | '-' :: rest => (pyIntNat rest).map (fun n => -(Int.ofNat n))
  | rest => (pyIntNat rest).map Int.ofNat

/-- Python substring test (the `in` operator on str): needle occurs
contiguously inside hay. -/
def strContains : List Char → List Char → Bool
  | hay, needle =>
    if needle.isPrefixOf hay then true
    else match hay with
      | [] => false
      | _ :: rest => strContains rest needle

/-- Collapse whitespace runs to single spaces: re.sub of one-or-more
whitespace with a single space. -/
def collapseWsGo : List Char → Bool → List Char
  | [], _ => []
  | c :: cs, afterSpace =>
    if pyIsSpace c then
      if afterSpace then collapseWsGo cs true else ' ' :: collapseWsGo cs true
    else c :: collapseWsGo cs false

def collapseWs (s : List Char) : List Char := collapseWsGo s false

/-- Python str.split on a single newline character. -/
def splitNlGo : List Char → List Char → List (List Char)
  | [], acc => [acc.reverse]
  | c :: cs, acc =>
    if c = '\n' then acc.reverse :: splitNlGo cs [] else splitNlGo cs (c :: acc)

def splitNl (s : List Char) : List (List Char) := splitNlGo s []

/-! ## Python dict as insertion-ordered association list -/

/-- Python dict assignment d[k] = v: overwrite in place if the key
exists, else append. -/
def dictInsert : List (String × Int) → String → Int → List (String × Int)
  | [], k, v => [(k, v)]
  | (k', v') :: rest, k, v =>
    if k' = k then (k', v) :: rest else (k', v') :: dictInsert rest k v

/-- Python dict lookup d.get(k). -/
def tblFind {α : Type} (tbl : List (String × α)) (k : String) : Option α :=
  (tbl.find? (fun p => p.1 = k)).map (·.2)

/-- Python d[k] = d.get(k, 0) + v. -/
def dictAdd (d : List (String × Int)) (k : String) (v : Int) : List (String × Int) :=
  dictInsert d k ((tblFind d k).getD 0 + v)

/-- Two-level dict d[k1][k2] = v where d[k1] is created on demand. -/
def dict2Insert : List (String × List (String × Int)) → String → String → Int →
    List (String × List (String × Int))
  | [], k1, k2, v => [(k1, [(k2, v)])]
  | (k', m) :: rest, k1, k2, v =>
    if k' = k1 then (k', dictInsert m k2 v) :: rest
    else (k', m) :: dict2Insert rest k1 k2 v

/-! ## Regex engine (Python re semantics)

A backtracking matcher in continuation-passing style.  Greedy operators
try the longer continuation first, lazy operators the shorter one,
alternation is ordered, and a repetition stops when an iteration makes
no progress (Python also stops repeating on an empty match).  The fuel
argument bounds the recursion depth; it is always instantiated with a
value that provably cannot be exhausted on the given input (every fuel
decrement either descends into the pattern or consumes input
characters), so the fuel never changes the answer for the patterns and
inputs in this file. -/

inductive RE where
  | eps : RE
  | nul : RE
  | cls : (Char → Bool) → RE
  | cat : RE → RE → RE
  | alt : RE → RE → RE
  | star : RE → RE
  | starL : RE → RE
  | opt : RE → RE
  | group : Nat → RE → RE
  | bolM : RE
  | eolM : RE
  | bolS : RE
  | eolS : RE

namespace RE

def size : RE → Nat
  | .eps => 1
  | .nul => 1
  | .cls _ => 1
  | .cat a b => a.size + b.size + 1
  | .alt a b => a.size + b.size + 1
  | .star a => a.size + 1
  | .starL a => a.size + 1
  | .opt a => a.size + 1
  | .group _ a => a.size + 1
  | .bolM => 1
  | .eolM => 1
  | .bolS => 1
  | .eolS => 1

/-- One-or-more, greedy. -/
def plus (a : RE) : RE := .cat a (.star a)

/-- One-or-more, lazy. -/
def plusL (a : RE) : RE := .cat a (.starL a)

/-- Exactly n repetitions. -/
def rep (a : RE) : Nat → RE
  | 0 => .eps
  | n + 1 => .cat a (rep a n)

/-- At most n repetitions, greedy. -/
def upto (a : RE) : Nat → RE
  | 0 => .eps
  | n + 1 => .opt (.cat a (upto a n))

/-- Counted repetition a with lo to hi occurrences, greedy. -/
def bounded (a : RE) (lo hi : Nat) : RE := .cat (rep a lo) (upto a (hi - lo))

end RE

/-- Sequence of patterns. -/
def seq (rs : List RE) : RE := rs.foldr .cat .eps

/-- Ordered alternation of a list of patterns. -/
def alts (rs : List RE) : RE := rs.foldr .alt .nul

/-- Literal string pattern. -/
def lit (s : String) : RE := seq (s.toList.map (fun c => .cls (fun x => x = c)))

/-- Literal string pattern under re.IGNORECASE (ASCII case folding). -/
def litCI (s : String) : RE :=
  seq (s.toList.map (fun c => .cls (fun x => x.toLower = c.toLower)))

/-- Matcher state: the character just before the current position (for
the anchors), the remaining input, and the captures recorded so far. -/
structure MSt where
  prev : Option Char
  rest : List Char
  caps : List (Nat × List Char)
deriving DecidableEq

def setCap : List (Nat × List Char) → Nat → List Char → List (Nat × List Char)
  | [], n, v => [(n, v)]
  | (n', v') :: rest, n, v =>
    if n' = n then (n', v) :: rest else (n', v') :: setCap rest n v

/-- The backtracking matcher.  reM fuel r st k matches r at st and runs
the continuation k on every candidate end state, in Python preference
order, returning the first success. -/
def reM : Nat → RE → MSt → (MSt → Option MSt) → Option MSt
  | 0, _, _, _ => none
  | _ + 1, .eps, st, k => k st
  | _ + 1, .nul, _, _ => none
  | _ + 1, .cls p, st, k =>
    match st.rest with
    | [] => none
    | c :: cs => if p c then k ⟨some c, cs, st.caps⟩ else none
  | f + 1, .cat a b, st, k => reM f a st (fun st1 => reM f b st1 k)
  | f + 1, .alt a b, st, k =>
    match reM f a st k with
    | some res => some res
    | none => reM f b st k
  | f + 1, .opt a, st, k =>
    match reM f a st k with
    | some res => some res
    | none => k st
  | f + 1, .star a, st, k =>
    match reM f a st (fun st1 =>
        if st1.rest.length < st.rest.length then reM f (.star a) st1 k else k st1) with
    | some res => some res
    | none => k st
  | f + 1, .starL a, st, k =>
    match k st with
    | some res => some res
    | none =>
      reM f a st (fun st1 =>
        if st1.rest.length < st.rest.length then reM f (.starL a) st1 k else none)
  | f + 1, .group n a, st, k =>
    reM f a st (fun st1 =>
      k ⟨st1.prev, st1.rest, setCap st1.caps n (st.rest.take (st.rest.length - st1.rest.length))⟩)
  | _ + 1, .bolM, st, k =>
    if st.prev = none || st.prev = some '\n' then k st else none
  | _ + 1, .eolM, st, k =>
    match st.rest with
    | [] => k st
    | c :: _ => if c = '\n' then k st else none
  | _ + 1, .bolS, st, k => if st.prev = none then k st else none
  | _ + 1, .eolS, st, k =>
    match st.rest with
    | [] => k st
    | ['\n'] => k st
    | _ => none

/-- Ample fuel for matching r against s (the depth bound argument is in
the section comment above). -/
def reFuel (r : RE) (s : List Char) : Nat := 4 * (s.length + 2) * (r.size + 2)

/-- Captured group n of a completed match, as Python match.group(n):
none when the group did not participate. -/
def capGet (st : MSt) (n : Nat) : Option (List Char) :=
  ((st.caps.find? (fun p => p.1 = n)).map (·.2))

/-- Try to match r exactly at the start of s (Python re.match), returning
the matched text and the end state. -/
def reTryAt (f : Nat) (r : RE) (prev : Option Char) (s : List Char) :
    Option (List Char × MSt) :=
  match reM f r ⟨prev, s, []⟩ some with
  | some st1 => some (s.take (s.length - st1.rest.length), st1)
  | none => none

/-- Python re.search scanning: try each successive start position,
leftmost match wins. -/
def reSearchGo (f : Nat) (r : RE) : Option Char → List Char → Option (List Char × MSt)
  | prev, s =>
    match reTryAt f r prev s with
    | some res => some res
    | none =>
      match s with
      | [] => none
      | c :: cs => reSearchGo f r (some c) cs

def reSearch (r : RE) (s : List Char) : Option (List Char × MSt) :=
  reSearchGo (reFuel r s) r none s

/-- Python re.match: anchored at the start of s. -/
def reMatchStart (r : RE) (s : List Char) : Option (List Char × MSt) :=
  reTryAt (reFuel r s) r none s

/-- Python re.finditer: successive non-overlapping matches; an empty
match advances one character (none of the patterns in this file can
match empty, the case is handled for totality). -/
def reFindIterGo (f : Nat) (r : RE) : Nat → Option Char → List Char → List (List Char × MSt)
  | 0, _, _ => []
  | fu + 1, prev, s =>
    match reSearchGo f r prev s with
    | none => []
    | some (m, st1) =>
      if m.isEmpty then
        (m, st1) ::
          (match st1.rest with
           | [] => []
           | c :: cs => reFindIterGo f r fu (some c) cs)
      else (m, st1) :: reFindIterGo f r fu st1.prev st1.rest

def reFindIter (r : RE) (s : List Char) : List (List Char × MSt) :=
  reFindIterGo (reFuel r s) r (s.length + 1) none s

/-- Python re.findall for patterns whose whole match is wanted. -/
def reFindAll (r : RE) (s : List Char) : List (List Char) :=
  (reFindIter r s).map (·.1)

end Huntstack

namespace Huntstack

/-! ## Calendar dates: datetime.strptime / strftime / validity -/

def monthNames : List (String × Nat) :=
  [("January",1),("February",2),("March",3),("April",4),("May",5),("June",6),
   ("July",7),("August",8),("September",9),("October",10),("November",11),("December",12)]

def monthAbbrs : List (String × Nat) :=
  [("Jan",1),("Feb",2),("Mar",3),("Apr",4),("May",5),("Jun",6),
   ("Jul",7),("Aug",8),("Sep",9),("Oct",10),("Nov",11),("Dec",12)]

def cDigit : RE := .cls pyIsDigit

def cSpace : RE := .cls pyIsSpace

def cDigitComma : RE := .cls (fun c => pyIsDigit c || c = ',')

def cWord : RE := .cls pyIsWord

/-- Dot under re.DOTALL. -/
def cAny : RE := .cls (fun _ => true)

/-- Dot without re.DOTALL: any character but a newline. -/
def cAnyNoNl : RE := .cls (fun c => c ≠ '\n')

def reMonthFull : RE := alts (monthNames.map (fun p => lit p.1))

def reMonthAbbr : RE := alts (monthAbbrs.map (fun p => lit p.1))

def reMonthFullCI : RE := alts (monthNames.map (fun p => litCI p.1))

def reMonthAbbrCI : RE := alts (monthAbbrs.map (fun p => litCI p.1))

/-- strptime day field, as CPython compiles the d directive:
3 followed by 0 or 1, or 1-2 followed by a digit, or 0 followed by a
digit, or a single nonzero digit. -/
def reDay : RE :=
  alts [seq [lit ("3"), .cls (fun c => c = '0' || c = '1')],
        seq [.cls (fun c => c = '1' || c = '2'), cDigit],
        seq [lit ("0"), cDigit],
        .cls (fun c => '1' ≤ c && c ≤ '9')]

/-- strptime month-number field, as CPython compiles the m directive. -/
def reMonthNum : RE :=
  alts [seq [lit ("1"), .cls (fun c => '0' ≤ c && c ≤ '2')],
        seq [lit ("0"), .cls (fun c => '1' ≤ c && c ≤ '9')],
        .cls (fun c => '1' ≤ c && c ≤ '9')]

/-- strptime year field: exactly four digits. -/
def reYear4 : RE := RE.rep cDigit 4

/-- strptime format tokens; group numbers: 1 month name, 2 day,
3 month number, 4 year. -/
inductive STok where
  | stlit : Char → STok
  | ws : STok
  | pB : STok
  | pb : STok
  | pd : STok
  | pm : STok
  | pY : STok

def stokRE : STok → RE
  | .stlit c => .cls (fun x => x = c)
  | .ws => RE.plus cSpace
  | .pB => .group 1 reMonthFullCI
  | .pb => .group 1 reMonthAbbrCI
  | .pd => .group 2 reDay
  | .pm => .group 3 reMonthNum
  | .pY => .group 4 reYear4

/-- Compile a strptime format string to tokens; CPython turns whitespace
in the format into a one-or-more-whitespace matcher. -/
def fmtToksGo : List Char → List STok
  | [] => []
  | '%' :: 'B' :: rest => .pB :: fmtToksGo rest
  | '%' :: 'b' :: rest => .pb :: fmtToksGo rest
  | '%' :: 'd' :: rest => .pd :: fmtToksGo rest
  | '%' :: 'm' :: rest => .pm :: fmtToksGo rest
  | '%' :: 'Y' :: rest => .pY :: fmtToksGo rest
  | c :: rest => (if pyIsSpace c then .ws else .stlit c) :: fmtToksGo rest

def fmtRE (fmt : String) : RE := seq ((fmtToksGo fmt.toList).map stokRE)

def isLeap (y : Nat) : Bool := y % 4 = 0 && (y % 100 ≠ 0 || y % 400 = 0)

def daysInMonth (y m : Nat) : Nat :=
  if m = 2 then (if isLeap y then 29 else 28)
  else if m = 4 || m = 6 || m = 9 || m = 11 then 30
  else 31

/-- datetime(y, m, d) constructor validity (MINYEAR 1, MAXYEAR 9999). -/
def dateOK (y m d : Nat) : Bool :=
  1 ≤ y && y ≤ 9999 && 1 ≤ m && m ≤ 12 && 1 ≤ d && d ≤ daysInMonth y m

def monthLookupCI (tbl : List (String × Nat)) (s : List Char) : Option Nat :=
  (tbl.find? (fun p => pyLower p.1.toList = pyLower s)).map (·.2)

/-- datetime.strptime for the formats used by the scrapers: match the
compiled format against the whole string, then construct the date (which
rejects impossible calendar dates). -/
def pyStrptimeDate (fmt : String) (s : List Char) : Option (Nat × Nat × Nat) :=
  let r := fmtRE fmt
  match reM (reFuel r s) r ⟨none, s, []⟩ some with
  | none => none
  | some st =>
    if st.rest ≠ [] then none
    else
      let m? : Option Nat :=
        match capGet st 1 with
        | some name =>
          match monthLookupCI monthNames name with
          | some m => some m
          | none => monthLookupCI monthAbbrs name
        | none => (capGet st 3).bind pyIntNat
      match m?, (capGet st 2).bind pyIntNat, (capGet st 4).bind pyIntNat with
      | some m, some d, some y => if dateOK y m d then some (y, m, d) else none
      | _, _, _ => none

/-- Decimal digits of a natural number (most significant first). -/
def natCharsGo : Nat → Nat → List Char → List Char
  | 0, _, acc => acc
  | fu + 1, n, acc =>
    let d := Char.ofNat (48 + n % 10)
    if n < 10 then d :: acc else natCharsGo fu (n / 10) (d :: acc)

def natChars (n : Nat) : List Char := natCharsGo (n + 1) n []

def zpad (w n : Nat) : List Char :=
  let s := natChars n
  List.replicate (w - s.length) '0' ++ s

/-- datetime.strftime of the Y-m-d format. -/
def strftimeYMD : Nat × Nat × Nat → String
  | (y, m, d) => ⟨zpad 4 y ++ '-' :: (zpad 2 m ++ '-' :: zpad 2 d)⟩

/-! ## ParseResult (parsers/base.py): the bare dataclass

The Python ParseResult is a plain dataclass with no validator: any field
values construct successfully.  The structure below mirrors that (no
constraints on the fields). -/

structure ParseResult where
  survey_date : String
  species_counts : List (String × Int)
  observers : Option String := none
  notes : Option String := none
  survey_type : String := "weekly"
deriving DecidableEq

/-- parse_count_value (parsers/base.py): strip, drop commas, then
Python int(); None on empty or unparsable. -/
def parse_count_value (text : List Char) : Option Int :=
  let cleaned := (pyStrip text).filter (fun c => c ≠ ',')
  if cleaned = [] then none else pyInt cleaned

/-- A run of digits and commas, the findall pattern of the number
scanners. -/
def reNumRun : RE := RE.plus cDigitComma

end Huntstack

namespace Huntstack

/-! ## LDWF tabular-PDF parser (parsers/ldwf_pdf.py) -/

/-- The LDWF uppercase species table: tracked names map to a display
name, aggregate and untracked rows map to none (Python None). -/
def LDWF_SPECIES_MAP : List (String × Option String) :=
  [("MALLARD", some ("Mallard")),
   ("MOTTLED", none),
   ("GADWALL", none),
   ("WIGEON", none),
   ("GW TEAL", some ("Green-winged Teal")),
   ("BW TEAL", some ("Blue-winged Teal")),
   ("SHOVELER", none),
   ("PINTAIL", some ("Northern Pintail")),
   ("SCAUP", none),
   ("RINGNECKED", none),
   ("CANVASBACK", none),
   ("COOTS", none),
   ("TOTAL DABBLERS", none),
   ("TOTAL DIVERS", none),
   ("TOTAL DUCKS", none)]

/-- The date pattern of parse_ldwf_pdf: a full month name, whitespace,
a 1-2 digit day, optional comma, whitespace, a 4 digit year. -/
def ldwfDateRE : RE :=
  .group 1 (seq [reMonthFull, RE.plus cSpace, RE.bounded cDigit 1 2,
                 .opt (lit (",")), RE.plus cSpace, RE.rep cDigit 4])

/-- The count-capture step both LDWF table formats share: parse the
last digit run of a line and record it when positive. -/
def insertPosCount (counts : List (String × Int)) (name : String)
    (num? : Option (List Char)) : List (String × Int) :=
  match num? with
  | none => counts
  | some lastNum =>
    match parse_count_value lastNum with
    | none => counts
    | some total => if total > 0 then dictInsert counts name total else counts

/-- Format B scan: walk the species table in insertion order, take the
first tracked key that prefixes the uppercased line (followed by a
space), read the trailing numbers of the rest of the line, and stop. -/
def ldwfFormatB : List (String × Option String) → List Char → List Char →
    List (String × Int) → List (String × Int)
  | [], _, _, counts => counts
  | (key, mapped) :: tbl, stripped, upper, counts =>
    match mapped with
    | none => ldwfFormatB tbl stripped upper counts
    | some mappedName =>
      if (key.toList ++ [' ']).isPrefixOf upper then
        insertPosCount counts mappedName
          ((reFindAll reNumRun (pyStrip (stripped.drop key.length))).getLast?)
      else ldwfFormatB tbl stripped upper counts

/-- The line loop of parse_ldwf_pdf: Format A (a bare species-name line
whose counts sit on the previous line) else Format B (species name and
numbers on one line). -/
def ldwfLinesGo : Option (List Char) → List (List Char) → List (String × Int) →
    List (String × Int)
  | _, [], counts => counts
  | prevLine, line :: rest, counts =>
    let stripped := pyStrip line
    let upper := pyUpper stripped
    let counts' :=
      match tblFind LDWF_SPECIES_MAP (⟨upper⟩ : String) with
      | some mapped =>
        match mapped with
        | none => counts
        | some mappedName =>
          match prevLine with
          | none => counts
          | some pl =>
            insertPosCount counts mappedName ((reFindAll reNumRun (pyStrip pl)).getLast?)
      | none => ldwfFormatB LDWF_SPECIES_MAP stripped upper counts
    ldwfLinesGo (some line) rest counts'

/-- Goose narrative pattern: digits, whitespace, snow or light,
whitespace, geese (IGNORECASE). -/
def reGooseSnow : RE :=
  seq [.group 1 reNumRun, RE.plus cSpace, .alt (litCI ("snow")) (litCI ("light")),
       RE.plus cSpace, litCI ("geese")]

/-- Goose narrative pattern: digits, whitespace, white-fronted or
specklebelly, whitespace, geese (IGNORECASE). -/
def reGooseWf : RE :=
  seq [.group 1 reNumRun, RE.plus cSpace,
       .alt (litCI ("white-fronted")) (litCI ("specklebelly")),
       RE.plus cSpace, litCI ("geese")]

/-- One goose-pattern step of parse_ldwf_pdf: search, parse the captured
number, and keep it only when truthy and above 100. -/
def ldwfGooseStep (r : RE) (name : String) (text : List Char)
    (counts : List (String × Int)) : List (String × Int) :=
  match reSearch r text with
  | none => counts
  | some (_, st) =>
    match capGet st 1 with
    | none => counts
    | some g =>
      match parse_count_value g with
      | none => counts
      | some v => if v ≠ 0 && v > 100 then dictInsert counts name v else counts

/-- Observer pattern of parse_ldwf_pdf: Reported By up to a newline or
the word Pilot (DOTALL, lazy). -/
def reLdwfObs : RE :=
  seq [lit ("Reported By:"), .star cSpace, .group 1 (RE.plusL cAny),
       .alt (lit ("\n")) (lit ("Pilot"))]

def ldwfObservers (text : List Char) : Option String :=
  match reSearch reLdwfObs text with
  | none => none
  | some (_, st) =>
    match capGet st 1 with
    | none => none
    | some g => some (⟨collapseWs (pyStrip g)⟩ : String)

/-- The tail of parse_ldwf_pdf once a survey date is fixed: the table
line loop, the two goose narrative searches, the nonemptiness guard,
and the record construction. -/
def ldwfFinish (text : List Char) (survey_date : String) : Option ParseResult :=
  let counts0 := ldwfLinesGo none (splitNl text) []
  let counts1 := ldwfGooseStep reGooseSnow ("Snow Goose") text counts0
  let counts2 := ldwfGooseStep reGooseWf ("Greater White-fronted Goose") text counts1
  if counts2 = [] then none
  else some { survey_date := survey_date, species_counts := counts2,
              observers := ldwfObservers text, survey_type := "aerial_monthly" }

/-- parse_ldwf_pdf over the pdfplumber-extracted page-0 text (none when
extraction raised or the PDF had no pages). -/
def parse_ldwf_pdf (pdfText : Option (List Char)) : Option ParseResult :=
  match pdfText with
  | none => none
  | some text =>
    if text = [] || text.length < 100 then none
    else
      match reSearch ldwfDateRE text with
      | none => none
      | some (_, st) =>
        match capGet st 1 with
        | none => none
        | some dateChars =>
          let date_str := pyStrip dateChars
          match pyStrptimeDate ("%B %d, %Y") date_str with
          | some ymd => ldwfFinish text (strftimeYMD ymd)
          | none =>
            match pyStrptimeDate ("%B %d %Y") date_str with
            | some ymd => ldwfFinish text (strftimeYMD ymd)
            | none => none

end Huntstack

namespace Huntstack

/-! ## Loess Bluffs weekly-PDF parser (parsers/loess_bluffs_pdf.py) -/

/-- Aggregate and non-species row names skipped by the Loess Bluffs
parser (its module-level skip set). -/
def LOESS_SKIP_NAMES : List String :=
  ["Species Group", "Bald Eagles", "Species",
   "Geese", "Dabblers", "Divers", "All Ducks",
   "Shorebirds", "Adult", "Immature", "All Eagles",
   "Habitat Condition", "Habitat Fair", "Habitat Good",
   "Habitat Poor", "Habitat Excellent"]

/-- Header date pattern: Date colon, optional whitespace, an ISO
year-month-day group. -/
def reLoessDate : RE :=
  seq [lit ("Date:"), .star cSpace,
       .group 1 (seq [RE.rep cDigit 4, lit ("-"), RE.rep cDigit 2, lit ("-"),
                      RE.rep cDigit 2])]

/-- Column date pattern: two digits, slash, two digits, slash, four
digits. -/
def reDateCol : RE :=
  seq [RE.rep cDigit 2, lit ("/"), RE.rep cDigit 2, lit ("/"), RE.rep cDigit 4]

/-- Character class of the species-name body: letters, whitespace, the
curly apostrophe, the straight apostrophe and the hyphen. -/
def loessNameChar (c : Char) : Bool :=
  pyIsAlphaAZ c || pyIsSpace c || c = '’' || c = '\'' || c = '-'

/-- Character class of the value tokens: digits, comma, and the letters
of the word Present (a Python character class, not the word). -/
def loessValChar (c : Char) : Bool :=
  pyIsDigit c || c = ',' || c = 'P' || c = 'r' || c = 'e' || c = 's' || c = 'n' || c = 't'

/-- The species-line pattern (MULTILINE): line start, a capital letter
then a lazy run of name characters, whitespace, a digit-comma run
followed by further whitespace-separated value tokens, optional
whitespace, line end. -/
def loessSpeciesRE : RE :=
  seq [.bolM,
       .group 1 (.cat (.cls pyIsUpperAZ) (RE.plusL (.cls loessNameChar))),
       RE.plus cSpace,
       .group 2 (seq [reNumRun, .star (seq [RE.plus cSpace, RE.plus (.cls loessValChar)])]),
       .star cSpace, .eolM]

/-- Value tokens inside a species line: a digit-comma run or the word
Present. -/
def reValTok : RE := .alt reNumRun (lit ("Present"))

/-- Non-species row filter: any of these substrings in the name. -/
def loessNonSpecies (name : List Char) : Bool :=
  [("Habitat" : String), "Condition", "Acres", "Percentage", "Wetland"].any
    (fun w => strContains name w.toList)

/-- Order-preserving deduplication of the column-date matches. -/
def dedupChars (l : List (List Char)) : List (List Char) :=
  l.foldl (fun acc d => if acc.contains d then acc else acc ++ [d]) []

/-- The species-count accumulation loop of parse_loess_bluffs_pdf. -/
def loessCounts (text : List Char) : List (String × Int) :=
  (reFindIter loessSpeciesRE text).foldl (fun counts m =>
    match capGet m.2 1, capGet m.2 2 with
    | some g1, some g2 =>
      let species_name := pyStrip g1
      let values_str := pyStrip g2
      if LOESS_SKIP_NAMES.contains (⟨species_name⟩ : String) then counts
      else if loessNonSpecies species_name then counts
      else
        match (reFindAll reValTok values_str).getLast? with
        | none => counts
        | some lastVal =>
          let count? : Option Int :=
            if lastVal = ("Present").toList then some 1 else parse_count_value lastVal
          match count? with
          | none => counts
          | some c =>
            if c > 0 then dictInsert counts (⟨species_name⟩ : String) c else counts
    | _, _ => counts) []

/-- parse_loess_bluffs_pdf over the concatenated pdfplumber text of all
pages (none when extraction raised or the PDF had no pages). -/
def parse_loess_bluffs_pdf (pdfText : Option (List Char)) : Option ParseResult :=
  match pdfText with
  | none => none
  | some text =>
    if text = [] || text.length < 100 then none
    else
      match reSearch reLoessDate text with
      | none => none
      | some (_, st) =>
        match capGet st 1 with
        | none => none
        | some d0 =>
          let survey_date : String :=
            match (dedupChars (reFindAll reDateCol text)).getLast? with
            | none => (⟨d0⟩ : String)
            | some lastD =>
              match pyStrptimeDate ("%m/%d/%Y") lastD with
              | some ymd => strftimeYMD ymd
              | none => (⟨d0⟩ : String)
          let counts := loessCounts text
          if counts = [] then none
          else some { survey_date := survey_date, species_counts := counts,
                      survey_type := "weekly" }

end Huntstack

namespace Huntstack

/-! ## AGFC narrative-PDF parser (parsers/agfc_pdf.py) -/

/-- First AGFC date pattern: full month name, whitespace, day, optional
dash and second day, optional comma, whitespace, year. -/
def agfcP1 : RE :=
  .group 1 (seq [reMonthFull, RE.plus cSpace, RE.bounded cDigit 1 2,
                 .opt (seq [lit ("-"), RE.bounded cDigit 1 2]),
                 .opt (lit (",")), RE.plus cSpace, RE.rep cDigit 4])

/-- Second AGFC date pattern: abbreviated month, optional period,
whitespace, day, optional comma-or-dash second day, optional comma,
whitespace, year. -/
def agfcP2 : RE :=
  .group 1 (seq [reMonthAbbr, .opt (lit (".")), RE.plus cSpace, RE.bounded cDigit 1 2,
                 .opt (seq [.cls (fun c => c = ',' || c = '-'), .star cSpace,
                            RE.bounded cDigit 1 2]),
                 .opt (lit (",")), RE.plus cSpace, RE.rep cDigit 4])

/-- Range rewrite pattern of parse_agfc_date: word with optional period,
whitespace, day, dash, captured end day, optional comma, whitespace,
captured year. -/
def agfcRangeRE : RE :=
  seq [.group 1 (.cat (RE.plus cWord) (.opt (lit (".")))), RE.plus cSpace,
       RE.bounded cDigit 1 2, lit ("-"), .group 2 (RE.bounded cDigit 1 2),
       .opt (lit (",")), RE.plus cSpace, .group 3 (RE.rep cDigit 4)]

/-- Multi-date rewrite pattern of parse_agfc_date (the Dec 10, 15-23
form). -/
def agfcMultiRE : RE :=
  seq [.group 1 (.cat (RE.plus cWord) (.opt (lit (".")))), RE.plus cSpace,
       RE.bounded cDigit 1 2, .opt (lit (",")), RE.plus cSpace,
       RE.bounded cDigit 1 2, lit ("-"), .group 2 (RE.bounded cDigit 1 2),
       .opt (lit (",")), RE.plus cSpace, .group 3 (RE.rep cDigit 4)]

/-- The f-string rebuild month space day comma space year, after
stripping trailing periods from the month. -/
def agfcRebuild (month day year : List Char) : List Char :=
  pyRstripChar '.' month ++ ' ' :: (day ++ ',' :: ' ' :: year)

/-- The four strptime formats tried by parse_agfc_date, in order. -/
def agfcTryFormats (ds : List Char) : Option String :=
  match pyStrptimeDate ("%B %d, %Y") ds with
  | some ymd => some (strftimeYMD ymd)
  | none =>
    match pyStrptimeDate ("%B %d %Y") ds with
    | some ymd => some (strftimeYMD ymd)
    | none =>
      match pyStrptimeDate ("%b %d, %Y") ds with
      | some ymd => some (strftimeYMD ymd)
      | none =>
        match pyStrptimeDate ("%b %d %Y") ds with
        | some ymd => some (strftimeYMD ymd)
        | none => none

/-- One pattern round of parse_agfc_date: search, rewrite a range to its
end date, rewrite a multi-date expression to its end date, then try the
strptime formats. -/
def agfcDateFromPattern (p : RE) (text : List Char) : Option String :=
  match reSearch p text with
  | none => none
  | some (_, st) =>
    match capGet st 1 with
    | none => none
    | some ds0 =>
      let ds1 :=
        match reSearch agfcRangeRE ds0 with
        | some (_, rst) =>
          match capGet rst 1, capGet rst 2, capGet rst 3 with
          | some mo, some da, some yr => agfcRebuild mo da yr
          | _, _, _ => ds0
        | none => ds0
      let ds2 :=
        match reSearch agfcMultiRE ds1 with
        | some (_, rst) =>
          match capGet rst 1, capGet rst 2, capGet rst 3 with
          | some mo, some da, some yr => agfcRebuild mo da yr
          | _, _, _ => ds1
        | none => ds1
      agfcTryFormats (pyStrip ds2)

/-- parse_agfc_date: try the two date patterns in order; a pattern whose
match fails every strptime format falls through to the next pattern. -/
def parse_agfc_date (text : List Char) : Option String :=
  match agfcDateFromPattern agfcP1 text with
  | some r => some r
  | none => agfcDateFromPattern agfcP2 text

/-- The three mallard narrative patterns, in order (IGNORECASE). -/
def MALLARD_PATTERNS : List RE :=
  [seq [alts [litCI ("estimated"), .cat (litCI ("totale")) (.opt (litCI ("d"))),
              litCI ("including"), litCI ("reported")],
        RE.plus cSpace, .group 1 reNumRun, RE.plus cSpace, litCI ("mallards")],
   seq [.group 1 reNumRun, RE.plus cSpace,
        .alt (litCI ("of those being")) (litCI ("being")),
        RE.plus cSpace, litCI ("mallards")],
   seq [.group 1 reNumRun, RE.plus cSpace, litCI ("mallards")]]

/-- Snow and Ross goose pattern (IGNORECASE, optional literal parens,
the dot of Ross-dot-s is a non-newline wildcard). -/
def reAgfcSnow : RE :=
  seq [.group 1 reNumRun, RE.plus cSpace, litCI ("light"), .star cSpace,
       .opt (lit ("(")), litCI ("lesser"), RE.plus cSpace, litCI ("snow"),
       RE.plus cSpace, litCI ("and"), RE.plus cSpace, litCI ("Ross"), cAnyNoNl,
       litCI ("s"), .opt (lit (")")), .star cSpace, litCI ("geese")]

/-- Greater white-fronted goose pattern (IGNORECASE). -/
def reAgfcWfg : RE :=
  seq [.group 1 reNumRun, RE.plus cSpace, litCI ("greater"), RE.plus cSpace,
       litCI ("white-fronted"), RE.plus cSpace, litCI ("geese")]

/-- Canada goose pattern (IGNORECASE). -/
def reAgfcCanada : RE :=
  seq [.group 1 reNumRun, RE.plus cSpace, litCI ("Canada"), RE.plus cSpace,
       litCI ("geese")]

/-- Search-then-insert step shared by the three goose extractions: keep
the value when parse_count_value gives a truthy result. -/
def agfcSearchInsert (r : RE) (name : String) (text : List Char)
    (counts : List (String × Int)) : List (String × Int) :=
  match reSearch r text with
  | none => counts
  | some (_, st) =>
    match capGet st 1 with
    | none => counts
    | some g =>
      match parse_count_value g with
      | none => counts
      | some v => if v ≠ 0 then dictInsert counts name v else counts

/-- Observer pattern of parse_agfc_pdf (IGNORECASE, lazy non-newline
middle). -/
def reAgfcObs : RE :=
  seq [litCI ("employee"), .opt (litCI ("s")), RE.plus cSpace,
       .group 1 (RE.plusL cAnyNoNl), RE.plus cSpace, litCI ("conducted")]

def agfcObservers (text : List Char) : Option String :=
  match reSearch reAgfcObs text with
  | none => none
  | some (_, st) =>
    match capGet st 1 with
    | none => none
    | some g => some (⟨pyStrip g⟩ : String)

/-- The regional mallard mentions of the narrative: every finditer
match of every mallard pattern whose parsed value is truthy and above
the 1000 noise threshold, in pattern-then-text order. -/
def agfcMallardCounts (text : List Char) : List Int :=
  MALLARD_PATTERNS.foldl (fun acc p =>
    (reFindIter p text).foldl (fun acc2 m =>
      match capGet m.2 1 with
      | none => acc2
      | some g =>
        match parse_count_value g with
        | none => acc2
        | some v => if v ≠ 0 && v > 1000 then acc2 ++ [v] else acc2) acc) []

/-- The species dictionary of parse_agfc_pdf: the summed mallard
mentions when any were found, then the three goose searches. -/
def agfcCounts (text : List Char) : List (String × Int) :=
  let counts0 : List (String × Int) :=
    if agfcMallardCounts text ≠ [] then
      dictInsert [] ("Mallard") ((agfcMallardCounts text).foldl (· + ·) 0)
    else []
  let counts1 := agfcSearchInsert reAgfcSnow ("Snow/Ross's Goose") text counts0
  let counts2 := agfcSearchInsert reAgfcWfg ("Greater White-fronted Goose") text counts1
  agfcSearchInsert reAgfcCanada ("Canada Goose") text counts2

/-- parse_agfc_pdf over the pdfplumber-extracted page-0 text: date, the
summed mallard mentions above the noise threshold, then the three goose
searches. -/
def parse_agfc_pdf (pdfText : Option (List Char)) : Option ParseResult :=
  match pdfText with
  | none => none
  | some text =>
    if text = [] || text.length < 100 then none
    else
      match parse_agfc_date text with
      | none => none
      | some survey_date =>
        if agfcCounts text = [] then none
        else some { survey_date := survey_date, species_counts := agfcCounts text,
                    observers := agfcObservers text, survey_type := "aerial_biweekly" }

end Huntstack

namespace Huntstack

/-! ## Sorting helper: Python sorted (stable, ascending) -/

def insStable {α : Type} (lt : α → α → Bool) (x : α) : List α → List α
  | [] => [x]
  | y :: ys => if lt y x then y :: insStable lt x ys else x :: y :: ys

def sortStable {α : Type} (lt : α → α → Bool) (l : List α) : List α :=
  l.foldr (insStable lt) []

/-- Python string comparison: lexicographic on code points. -/
def strLt : List Char → List Char → Bool
  | [], [] => false
  | [], _ :: _ => true
  | _ :: _, [] => false
  | a :: as, b :: bs =>
    if a.val < b.val then true else if b.val < a.val then false else strLt as bs

/-! ## Clarence Cannon wide-HTML-table parser
(parsers/clarence_cannon_html.py)

The Scrapy response is modelled by the list of its table rows, each row
the list of its cell texts (the output of the cell-text helper that
joins and strips the text nodes of a td element); an empty list stands
for a page with no matching table or no rows. -/

/-- Aggregate and header row names of the Clarence Cannon skip set
(matched as substrings of the lowercased first cell). -/
def CC_SKIP_NAMES : List String :=
  ["total ducks", "total geese", "total waterfowl", "total",
   "species & code", "species"]

/-- Date-header pattern: anchored 1-2 digit month, slash, 1-2 digit day,
slash, 2-4 digit year. -/
def ccDateRE : RE :=
  seq [.bolS, .group 1 (RE.bounded cDigit 1 2), lit ("/"),
       .group 2 (RE.bounded cDigit 1 2), lit ("/"),
       .group 3 (RE.bounded cDigit 2 4), .eolS]

/-- Parse a header cell as a survey-date column: two-digit years get
2000 added, then datetime validity, then Y-m-d formatting. -/
def ccParseDateHeader (cellText : List Char) : Option String :=
  match reMatchStart ccDateRE (pyStrip cellText) with
  | none => none
  | some (_, st) =>
    match capGet st 1, capGet st 2, capGet st 3 with
    | some mo, some da, some yr =>
      match pyIntNat mo, pyIntNat da, pyIntNat yr with
      | some m, some d, some y0 =>
        let y := if y0 < 100 then y0 + 2000 else y0
        if dateOK y m d then some (strftimeYMD (y, m, d)) else none
      | _, _, _ => none
    | _, _, _ => none

/-- Skip-row test: blank first cell, or any skip name occurs in the
lowercased stripped first cell. -/
def ccIsSkipRow (first : List Char) : Bool :=
  let normalized := pyStrip (pyLower first)
  if normalized = [] then true
  else CC_SKIP_NAMES.any (fun sk => strContains normalized sk.toList)

/-- Removal of a trailing parenthesized uppercase species code with the
surrounding whitespace, the sub of the code-suffix pattern: from the
end, optional whitespace, a closing paren, a nonempty run of capitals
and slashes, an opening paren, and the whitespace before it. -/
def ccCodeChar (c : Char) : Bool := pyIsUpperAZ c || c = '/'

def stripCodeSuffix (s : List Char) : List Char :=
  match s.reverse.dropWhile pyIsSpace with
  | ')' :: r1 =>
    match r1.takeWhile ccCodeChar, r1.dropWhile ccCodeChar with
    | _ :: _, '(' :: r3 => (r3.dropWhile pyIsSpace).reverse
    | _, _ => s
  | _ => s

/-- Pass 1 of parse_clarence_cannon_html: find the first header row (its
first cell contains SPECIES) and parse each later cell as a date column,
the unparsable ones becoming permanently skipped empty markers. -/
def ccFindDateColumns : List (List String) → List String
  | [] => []
  | row :: rest =>
    match row with
    | [] => ccFindDateColumns rest
    | first :: others =>
      if strContains (pyUpper first.toList) (("SPECIES").toList) then
        others.map (fun cell => (ccParseDateHeader cell.toList).getD "")
      else ccFindDateColumns rest

/-- Pass 2 of parse_clarence_cannon_html: accumulate per-date species
counts, skipping blank, header and skip rows, stripping the code suffix
from the species name, and dropping cells whose count is missing or
zero. -/
def ccPass2 (dateCols : List String) (rows : List (List String)) :
    List (String × List (String × Int)) :=
  rows.foldl (fun acc row =>
    match row with
    | [] => acc
    | first :: dataCells =>
      let firstL := first.toList
      if firstL = [] || strContains (pyUpper firstL) (("SPECIES").toList) then acc
      else if ccIsSkipRow firstL then acc
      else
        let species_name := pyStrip (stripCodeSuffix firstL)
        if species_name = [] then acc
        else
          (dataCells.zip dateCols).foldl (fun acc2 cellDate =>
            if cellDate.2 = "" then acc2
            else
              match parse_count_value cellDate.1.toList with
              | none => acc2
              | some count =>
                if count = 0 then acc2
                else dict2Insert acc2 cellDate.2 (⟨species_name⟩ : String) count) acc) []

/-- parse_clarence_cannon_html: one ParseResult per date column with at
least one kept count, in sorted date order. -/
def parse_clarence_cannon_html (rows : List (List String)) : List ParseResult :=
  match rows with
  | [] => []
  | _ =>
    let dateCols := ccFindDateColumns rows
    if dateCols = [] then []
    else
      let byDate := ccPass2 dateCols rows
      if byDate = [] then []
      else
        (sortStable (fun a b => strLt a.1.toList b.1.toList) byDate).map
          (fun p => { survey_date := p.1, species_counts := p.2,
                      survey_type := "weekly" })

/-! ## Shared HTML/text extractors (parsers/base.py) -/

/-- extract_table_counts over the tables of a response, each table a
list of rows, each row the list of its td and th text nodes. -/
def extract_table_counts (tables : List (List (List String))) : List (String × Int) :=
  tables.foldl (fun acc table =>
    table.foldl (fun acc2 row =>
      let cells := (row.map (fun c => pyStrip c.toList)).filter (fun c => c ≠ [])
      match cells, cells.getLast? with
      | name :: _ :: _, some last =>
        let nameL := pyLower name
        if nameL = (("species").toList) || nameL = (("count").toList) || nameL = [] then
          acc2
        else if strContains nameL (("total").toList) ||
                strContains nameL (("grand").toList) then acc2
        else
          match parse_count_value last with
          | none => acc2
          | some count =>
            if count > 0 then dictInsert acc2 (⟨name⟩ : String) count else acc2
      | _, _ => acc2) acc) []

/-- Skip words of extract_counts_from_text (exact lowercase match). -/
def ECT_SKIP_WORDS : List String :=
  ["total", "grand", "date", "observer", "temperature",
   "wind", "weather", "lake", "level", "conditions",
   "page", "section", "chapter"]

/-- Species-name core of the text-fallback pattern: a capital, a run of
lowercase letters, then further separator-and-word groups. -/
def ectNameCore : RE :=
  .cat (.cls pyIsUpperAZ)
       (.cat (RE.plus (.cls pyIsLowerAZ))
             (.star (seq [.cls (fun c => c = '-' || c = '/' || pyIsSpace c),
                          RE.plus (.cls (fun c => pyIsAlphaAZ c || c = '\''))])))

/-- The two-branch fallback pattern of extract_counts_from_text: name
colon count, or name whitespace count. -/
def ectRE : RE :=
  .alt (seq [.group 1 ectNameCore, .star cSpace, lit (":"), .star cSpace,
             .group 2 reNumRun])
       (seq [.group 3 ectNameCore, RE.plus cSpace, .group 4 reNumRun])

/-- extract_counts_from_text: scan all matches, take the populated group
pair, skip the single-word skip list, keep positive counts. -/
def extract_counts_from_text (text : List Char) : List (String × Int) :=
  (reFindIter ectRE text).foldl (fun counts m =>
    let pair? : Option (List Char × List Char) :=
      match capGet m.2 1 with
      | some g1 => (capGet m.2 2).map (fun g2 => (g1, g2))
      | none =>
        match capGet m.2 3 with
        | some g3 => (capGet m.2 4).map (fun g4 => (g3, g4))
        | none => none
    match pair? with
    | none => counts
    | some (name0, countStr) =>
      let name := pyStrip name0
      let count? := parse_count_value countStr
      if ECT_SKIP_WORDS.contains (⟨pyLower name⟩ : String) then counts
      else
        match count? with
        | none => counts
        | some count =>
          if count > 0 then dictInsert counts (⟨name⟩ : String) count else counts) []

end Huntstack

namespace Huntstack

/-! ## Species resolver (species_mapping.py) -/

/-- Core alias table: lowercase, whitespace-normalized names to slugs. -/
def SPECIES_ALIASES : List (String × String) :=
  [("duck", "mallard"),
   ("ducks", "mallard"),
   ("mallard", "mallard"),
   ("mallards", "mallard"),
   ("teal", "green-winged-teal"),
   ("green-winged teal", "green-winged-teal"),
   ("blue-winged teal", "blue-winged-teal"),
   ("cinnamon teal", "green-winged-teal"),
   ("pintail", "pintail"),
   ("northern pintail", "pintail"),
   ("wood duck", "wood-duck"),
   ("gadwall", "gadwall"),
   ("wigeon", "american-wigeon"),
   ("american wigeon", "american-wigeon"),
   ("baldpate", "american-wigeon"),
   ("shoveler", "northern-shoveler"),
   ("northern shoveler", "northern-shoveler"),
   ("spoonbill", "northern-shoveler"),
   ("canvasback", "canvasback"),
   ("redhead", "redhead"),
   ("scaup", "scaup"),
   ("bluebill", "scaup"),
   ("bluebills", "scaup"),
   ("ring-necked duck", "ring-necked-duck"),
   ("ringneck", "ring-necked-duck"),
   ("ringbill", "ring-necked-duck"),
   ("bufflehead", "bufflehead"),
   ("butterball", "bufflehead"),
   ("ruddy duck", "ruddy-duck"),
   ("mottled duck", "mottled-duck"),
   ("snow goose", "snow-goose"),
   ("snow geese", "snow-goose"),
   ("light goose", "snow-goose"),
   ("light geese", "snow-goose"),
   ("blue goose", "snow-goose"),
   ("ross goose", "ross-goose"),
   ("ross's goose", "ross-goose"),
   ("canada goose", "canada-goose"),
   ("canada geese", "canada-goose"),
   ("dark goose", "canada-goose"),
   ("dark geese", "canada-goose"),
   ("white-fronted goose", "white-fronted-goose"),
   ("greater white-fronted goose", "white-fronted-goose"),
   ("specklebelly", "white-fronted-goose"),
   ("speck", "white-fronted-goose")]

/-- Mid-winter-survey CSV column headers: tracked names to slugs,
explicitly untracked names to none. -/
def MWI_COLUMN_MAPPING : List (String × Option String) :=
  [("Mallard", some ("mallard")),
   ("Canada Goose (not speciated)", some ("canada-goose")),
   ("Light Geese (not differentiated by color phase)", some ("snow-goose")),
   ("Greater White-fronted Goose", some ("white-fronted-goose")),
   ("Green-winged Teal", some ("green-winged-teal")),
   ("Blue-winged and Cinnamon Teal (not speciated)", some ("blue-winged-teal")),
   ("Northern Pintail", some ("pintail")),
   ("Wood Duck", some ("wood-duck")),
   ("American Wigeon", some ("american-wigeon")),
   ("Bufflehead", some ("bufflehead")),
   ("Canvasback", some ("canvasback")),
   ("Gadwall", some ("gadwall")),
   ("Mottled Duck", some ("mottled-duck")),
   ("Northern Shoveler", some ("northern-shoveler")),
   ("Redhead", some ("redhead")),
   ("Ring-necked Duck", some ("ring-necked-duck")),
   ("Ruddy Duck", some ("ruddy-duck")),
   ("Scaup (not speciated)", some ("scaup")),
   ("American Black Duck", none),
   ("American Coot", none),
   ("Brant", none),
   ("Eider (not speciated)", none),
   ("Emperor Goose", none),
   ("Goldeneye (not speciated)", none),
   ("Harlequin Duck", none),
   ("Long-tailed Duck", none),
   ("Merganser (not speciated)", none),
   ("Mexican-like Duck", none),
   ("Sandhill Crane", none),
   ("Scoters", none),
   ("Swan (not differentiated)", none),
   ("Unidentified Ducks", none),
   ("Whistling Duck", none),
   ("Miscellaneous Ducks", none)]

/-- Refuge weekly-survey HTML and PDF names: tracked names to slugs,
aggregate rows and untracked species to none. -/
def REFUGE_SURVEY_MAPPING : List (String × Option String) :=
  [("Mallard", some ("mallard")),
   ("Mallards", some ("mallard")),
   ("Green-winged Teal", some ("green-winged-teal")),
   ("Blue-winged Teal", some ("blue-winged-teal")),
   ("Northern Pintail", some ("pintail")),
   ("Pintail", some ("pintail")),
   ("Wood Duck", some ("wood-duck")),
   ("Teal, Green-Winged", some ("green-winged-teal")),
   ("Teal, Blue-Winged", some ("blue-winged-teal")),
   ("Northern Shoveler", some ("northern-shoveler")),
   ("Merganser, Hooded", none),
   ("Merganser, Common", none),
   ("Ruddy Duck", some ("ruddy-duck")),
   ("Bufflehead", some ("bufflehead")),
   ("Snow/Ross's Goose", some ("snow-goose")),
   ("Snow/Ross's Geese", some ("snow-goose")),
   ("Snow/Blue/Ross Geese", some ("snow-goose")),
   ("Snow/Blue/Ross", some ("snow-goose")),
   ("Snow Goose", some ("snow-goose")),
   ("Ross's Goose", some ("ross-goose")),
   ("Ross’s Goose", some ("ross-goose")),
   ("Canada Goose", some ("canada-goose")),
   ("Canada, Large", some ("canada-goose")),
   ("Canada, Small", some ("canada-goose")),
   ("Large Canada Geese", some ("canada-goose")),
   ("Small Canada Geese", some ("canada-goose")),
   ("Cackling Goose", some ("canada-goose")),
   ("White-fronted Goose", some ("white-fronted-goose")),
   ("Greater White-fronted Goose", some ("white-fronted-goose")),
   ("Greater White-Fronted", some ("white-fronted-goose")),
   ("Specklebelly Goose", some ("white-fronted-goose")),
   ("Total Ducks", none),
   ("Total Geese", none),
   ("Total Waterfowl", none),
   ("Grand Total", none),
   ("TOTAL DUCKS", none),
   ("TOTAL GEESE", none),
   ("Unidentified", none),
   ("Sandhill Crane", none),
   ("American Wigeon", some ("american-wigeon")),
   ("Gadwall", some ("gadwall")),
   ("Canvasback", some ("canvasback")),
   ("Redhead", some ("redhead")),
   ("Ring-necked Duck", some ("ring-necked-duck")),
   ("Scaup", some ("scaup")),
   ("Trumpeter Swan", none),
   ("Tundra Swan", none),
   ("American Black Duck", none),
   ("Cinnamon Teal", none),
   ("Common Goldeneye", none),
   ("Hooded Merganser", none),
   ("Common Merganser", none),
   ("Red-breasted Merganser", none),
   ("Pied-billed Grebe", none),
   ("Horned Grebe", none),
   ("Eared Grebe", none),
   ("American Coot", none)]

/-- Source-table stage of the resolver: the MWI column table first, then
the refuge table, each consulted case-sensitively on the stripped name;
an explicit none entry means untracked (skip), a missing key falls
through. -/
def resolve_source_tables (name : String) : Option String :=
  let key : String := ⟨pyStrip name.toList⟩
  match tblFind MWI_COLUMN_MAPPING key with
  | some (some v) => some v
  | some none => none
  | none =>
    match tblFind REFUGE_SURVEY_MAPPING key with
    | some (some v) => some v
    | some none => none
    | none => none

/-- resolve_species_slug: empty name fails, then the alias table keyed
by the lowercased stripped name (a truthy hit returns), then the
source-specific tables. -/
def resolve_species_slug (name : String) : Option String :=
  if name = "" then none
  else
    let normalized : String := ⟨pyLower (pyStrip name.toList)⟩
    match tblFind SPECIES_ALIASES normalized with
    | some slug => if slug ≠ "" then some slug else resolve_source_tables name
    | none => resolve_source_tables name

end Huntstack

namespace Huntstack

/-! ## LLM-backed extractor validation stage (extractors/llm.py)

The network call and JSON decoding are external; the embedding takes
the parsed JSON payload (or none when the request or decoding raised,
which the outer handler turns into a failure) and models the
validation/coercion code of extract_bird_counts_from_text.  JSON leaf
values are a null, integer or string variant; fractional numbers do not
occur in the claims below and are not modelled. -/

inductive JVal where
  | jnull : JVal
  | jint : Int → JVal
  | jstr : String → JVal
deriving DecidableEq

/-- Python truthiness of a JSON leaf. -/
def jFalsy : JVal → Bool
  | .jnull => true
  | .jint i => i = 0
  | .jstr s => s = ""

/-- Python int(value) on a JSON leaf: an int is itself, a string is
parsed, null raises TypeError (caught by the coercion loop). -/
def jToInt : JVal → Option Int
  | .jnull => none
  | .jint i => some i
  | .jstr s => pyInt s.toList

/-- The parsed JSON payload of the model response. -/
structure LlmData where
  survey_date : JVal
  species_counts : List (String × JVal)
  observers : JVal
deriving DecidableEq

/-- The validated extraction result. -/
structure LlmResult where
  survey_date : String
  species_counts : List (String × Int)
  observers : Option JVal
deriving DecidableEq

/-- extract_bird_counts_from_text: short-text guard, then the coercion
and validation of the model payload.  Name-or-count falsy entries and
non-coercible counts are dropped; an empty cleaned mapping, a falsy
date, a non-string date (a TypeError reaching the outer handler) or a
date failing the Y-m-d strptime all yield none.  Observers are kept when
truthy and not the literal string null. -/
def extract_bird_counts_from_text (text : List Char) (llmResponse : Option LlmData) :
    Option LlmResult :=
  if text = [] || text.length < 50 then none
  else
    match llmResponse with
    | none => none
    | some data =>
      let cleaned : List (String × Int) :=
        data.species_counts.foldl (fun acc nc =>
          if nc.1 = "" || jFalsy nc.2 then acc
          else
            match jToInt nc.2 with
            | none => acc
            | some i => dictInsert acc nc.1 i) []
      if cleaned = [] then none
      else if jFalsy data.survey_date then none
      else
        match data.survey_date with
        | .jstr s =>
          match pyStrptimeDate ("%Y-%m-%d") s.toList with
          | none => none
          | some _ =>
            some { survey_date := s, species_counts := cleaned,
                   observers :=
                     if jFalsy data.observers || data.observers = .jstr ("null")
                     then none else some data.observers }
        | _ => none

end Huntstack

namespace Huntstack

/-! ## TPWD mid-winter-survey Excel parser (parsers/tpwd_excel.py)

A workbook is the list of its named sheets; a sheet is its cell grid.
Cells are blank (pandas NaN), numeric, or string; the numeric cells of
these workbooks are integral and are modelled at integer precision
(fractional values occur in no claim).  A sheet shorter than the fixed
row indices the source reads is modelled with blank padding: the only
such access, the header row of the historical layout, would raise in
Python on a degenerate sheet, and no claim depends on that case. -/

inductive XCell where
  | num : Int → XCell
  | str : String → XCell
  | blank : XCell
deriving DecidableEq

abbrev Sheet := List (List XCell)

abbrev Workbook := List (String × Sheet)

/-- pandas read_excel with a sheet name: the named sheet, none when
missing (the source catches the raised error and returns no results). -/
def wbGet (wb : Workbook) (name : String) : Option Sheet :=
  (wb.find? (fun p => p.1 = name)).map (·.2)

def sheetCols (df : Sheet) : Nat := (df.map List.length).foldl max 0

def padTo (n : Nat) (row : List XCell) : List XCell :=
  row ++ List.replicate (n - row.length) .blank

def rowAt (df : Sheet) (i : Nat) : List XCell := df.getD i []

def cellAt (row : List XCell) (j : Nat) : XCell := row.getD j .blank

/-- Python float(s) restricted to integral decimal forms (optionally
signed digits, optionally a decimal point with zero digits); the
workbook data holds no other numeric strings. -/
def pyFloatInt (s : List Char) : Option Int :=
  let core := fun (u : List Char) =>
    let ip := u.takeWhile (fun c => c ≠ '.')
    match u.dropWhile (fun c => c ≠ '.') with
    | [] => pyIntNat ip
    | '.' :: frac =>
      if (ip ≠ [] || frac ≠ []) && ip.all pyIsDigit && frac.all (fun c => c = '0') then
        (if ip = [] then some 0 else pyIntNat ip)
      else none
    | _ => none
  match pyStrip s with
  | '+' :: rest => (core rest).map Int.ofNat
  | '-' :: rest => (core rest).map (fun n => -(Int.ofNat n))
  | rest => (core rest).map Int.ofNat

/-- The blank test of tpwd_excel.py: NaN cells, and strings that are
empty or a textual NaN or None after stripping (the float-then-isnan
path of the source accepts the nan spellings case-insensitively). -/
def _is_blank : XCell → Bool
  | .blank => true
  | .num _ => false
  | .str s =>
    let t := pyStrip s.toList
    t = [] || pyLower t = (("nan").toList) || t = (("None").toList)

/-- Python str(cell): string cells are themselves, numeric cells render
their integral value, NaN renders nan. -/
def cellStr : XCell → String
  | .num i => toString i
  | .str s => s
  | .blank => "nan"

/-- int(float(str(cell))) of the year-header scan: ValueError (from NaN
or non-numeric text) is caught by the caller. -/
def yearOfCell : XCell → Option Int
  | .num i => some i
  | .str s => pyFloatInt s.toList
  | .blank => none

/-- The count coercion of tpwd_excel.py: blanks fail, negatives fail,
integral values pass through. -/
def _parse_count : XCell → Option Int
  | c =>
    if _is_blank c then none
    else
      match c with
      | .num i => if i < 0 then none else some i
      | .str s =>
        match pyFloatInt s.toList with
        | none => none
        | some f => if f < 0 then none else some f
      | .blank => none

/-- Total and non-species row names skipped by both TPWD layouts. -/
def TPWD_SKIP_NAMES : List String :=
  ["total dabblers", "total divers", "total ducks", "total geese",
   "total swans", "total coots", "total", "survey zone"]

def yearDate (y : Int) : String := toString y ++ "-01-15"

def dedupInts (l : List Int) : List Int :=
  l.foldl (fun acc y => if acc.contains y then acc else acc ++ [y]) []

/-- counts_by_year update: find the year bucket and add into its species
dict (the buckets are pre-created for every discovered year). -/
def intDictAdd : List (Int × List (String × Int)) → Int → String → Int →
    List (Int × List (String × Int))
  | [], y, k, v => [(y, [(k, v)])]
  | (y', m) :: rest, y, k, v =>
    if y' = y then (y', dictAdd m k v) :: rest
    else (y', m) :: intDictAdd rest y k v

/-- The historical multi-year layout: year columns discovered by
scanning header row 2 for plausible 4-digit values, species rows from
row 3 on, counts summed per year across rows resolving to one slug. -/
def _parse_historical (wb : Workbook) : List ParseResult :=
  match wbGet wb ("State Wide estimates") with
  | none => []
  | some df =>
    let ncols := sheetCols df
    let headerRow := padTo ncols (rowAt df 2)
    let yearCols : List (Nat × Int) :=
      headerRow.enum.filterMap (fun p =>
        match yearOfCell p.2 with
        | some y => if 1990 ≤ y && y ≤ 2030 then some (p.1, y) else none
        | none => none)
    if yearCols = [] then []
    else
      let buckets0 : List (Int × List (String × Int)) :=
        (dedupInts (yearCols.map (·.2))).map (fun y => (y, []))
      let buckets := (df.drop 3).foldl (fun acc row =>
        let row := padTo ncols row
        let c1 := cellAt row 1
        let species_raw : String :=
          if _is_blank c1 then "" else ⟨pyStrip (cellStr c1).toList⟩
        if species_raw = "" then acc
        else if TPWD_SKIP_NAMES.contains (⟨pyLower species_raw.toList⟩ : String) then acc
        else
          match resolve_species_slug species_raw with
          | none => acc
          | some slug =>
            yearCols.foldl (fun acc2 cy =>
              match _parse_count (cellAt row cy.1) with
              | none => acc2
              | some count =>
                if count > 0 then intDictAdd acc2 cy.2 slug count else acc2) acc) buckets0
      (sortStable (fun a b => decide (a.1 < b.1)) buckets).foldl
        (fun res yb =>
          if yb.2 = [] then res
          else res ++ [{ survey_date := yearDate yb.1, species_counts := yb.2,
                         survey_type := "annual_midwinter" }]) []

/-- The first-four-digit-run search of the sheet-name year. -/
def reYearRun : RE := .group 1 (RE.rep cDigit 4)

/-- The state-total column scan of the per-sheet layout: first column of
header row 1 whose text contains the marker. -/
def findTotalCol (row1 : List XCell) : Option Nat :=
  (row1.enum.find? (fun p =>
    strContains (pyLower (pyStrip (cellStr p.2).toList)) (("state total").toList))).map (·.1)

/-- The per-sheet yearly layout: one record per sheet whose name holds a
year, counts read from the dynamically located (or fallback column 8)
state-total column, summed per slug, sheets sorted by survey date. -/
def _parse_yearly_summary (wb : Workbook) : List ParseResult :=
  let results := wb.foldl (fun res sheet =>
    match reSearch reYearRun sheet.1.toList with
    | none => res
    | some (_, st) =>
      match (capGet st 1).bind pyIntNat with
      | none => res
      | some year =>
        let df := sheet.2
        if df.length < 3 || sheetCols df < 9 then res
        else
          let ncols := sheetCols df
          let tc := (findTotalCol (padTo ncols (rowAt df 1))).getD 8
          let species_counts := (df.drop 2).foldl (fun sc row =>
            let row := padTo ncols row
            let c0 := cellAt row 0
            let species_raw : String :=
              if _is_blank c0 then "" else ⟨pyStrip (cellStr c0).toList⟩
            if species_raw = "" then sc
            else if TPWD_SKIP_NAMES.contains (⟨pyLower species_raw.toList⟩ : String) then sc
            else
              match resolve_species_slug species_raw with
              | none => sc
              | some slug =>
                match _parse_count (cellAt row tc) with
                | none => sc
                | some count => if count > 0 then dictAdd sc slug count else sc) []
          if species_counts = [] then res
          else res ++ [{ survey_date := yearDate (Int.ofNat year),
                         species_counts := species_counts,
                         survey_type := "annual_midwinter" }]) []
  sortStable (fun a b => strLt a.survey_date.toList b.survey_date.toList) results

/-- parse_tpwd_excel: dispatch on the lowercased file name (estimates
to the historical layout, the summary spellings to the per-sheet
layout), falling back for unrecognized names to trying the per-sheet
layout and then the historical one. -/
def parse_tpwd_excel (wb : Workbook) (filename : String) : List ParseResult :=
  let fname := pyLower filename.toList
  if strContains fname (("estimates_97").toList) ||
     strContains fname (("estimates").toList) then _parse_historical wb
  else if strContains fname (("yearly-summary").toList) ||
          strContains fname (("yearly_summary").toList) ||
          strContains fname (("summary").toList) then _parse_yearly_summary wb
  else
    let results := _parse_yearly_summary wb
    if results = [] then _parse_historical wb else results

end Huntstack

namespace Huntstack

/-! ## Generic lemmas about the dict and fold helpers -/

theorem foldl_inv {α β : Type} (P : β → Prop) (f : β → α → β) (l : List α)
    (init : β) (h0 : P init) (hstep : ∀ b a, P b → P (f b a)) :
    P (l.foldl f init) := by
  induction l generalizing init with
  | nil => exact h0
  | cons x xs ih => exact ih (f init x) (hstep init x h0)

theorem dictInsert_mem {d : List (String × Int)} {k : String} {v : Int}
    {kv : String × Int} (h : kv ∈ dictInsert d k v) :
    (kv.1 = k ∧ kv.2 = v) ∨ kv ∈ d := by
  induction d with
  | nil =>
    simp only [dictInsert, List.mem_singleton] at h
    subst h; exact Or.inl ⟨rfl, rfl⟩
  | cons p rest ih =>
    simp only [dictInsert] at h
    by_cases hk : p.1 = k
    · rw [if_pos hk] at h
      rcases List.mem_cons.mp h with h1 | h2
      · subst h1; exact Or.inl ⟨hk, rfl⟩
      · exact Or.inr (List.mem_cons_of_mem _ h2)
    · rw [if_neg hk] at h
      rcases List.mem_cons.mp h with h1 | h2
      · exact Or.inr (h1 ▸ List.mem_cons_self _ _)
      · rcases ih h2 with h3 | h4
        · exact Or.inl h3
        · exact Or.inr (List.mem_cons_of_mem _ h4)

theorem dictInsert_pres {P : String × Int → Prop} {d : List (String × Int)}
    {k : String} {v : Int} (hd : ∀ kv ∈ d, P kv) (hv : P (k, v)) :
    ∀ kv ∈ dictInsert d k v, P kv := by
  intro kv h
  rcases dictInsert_mem h with ⟨h1, h2⟩ | h3
  · have : kv = (k, v) := Prod.ext h1 h2
    exact this ▸ hv
  · exact hd kv h3

theorem dictAdd_pres {P : String × Int → Prop} {d : List (String × Int)}
    {k : String} {v : Int} (hd : ∀ kv ∈ d, P kv)
    (hv : P (k, (tblFind d k).getD 0 + v)) :
    ∀ kv ∈ dictAdd d k v, P kv :=
  dictInsert_pres hd hv

theorem dict2Insert_mem {d : List (String × List (String × Int))}
    {k1 k2 : String} {v : Int} {p : String × List (String × Int)}
    (h : p ∈ dict2Insert d k1 k2 v) :
    (∃ m, p.2 = dictInsert m k2 v ∧ (m = [] ∨ ∃ q ∈ d, q.2 = m)) ∨ p ∈ d := by
  induction d with
  | nil =>
    simp only [dict2Insert, List.mem_singleton] at h
    subst h
    exact Or.inl ⟨[], rfl, Or.inl rfl⟩
  | cons q rest ih =>
    simp only [dict2Insert] at h
    by_cases hk : q.1 = k1
    · rw [if_pos hk] at h
      rcases List.mem_cons.mp h with h1 | h2
      · subst h1
        exact Or.inl ⟨q.2, rfl, Or.inr ⟨q, List.mem_cons_self _ _, rfl⟩⟩
      · exact Or.inr (List.mem_cons_of_mem _ h2)
    · rw [if_neg hk] at h
      rcases List.mem_cons.mp h with h1 | h2
      · exact Or.inr (h1 ▸ List.mem_cons_self _ _)
      · rcases ih h2 with ⟨m, hm, hsrc⟩ | h4
        · refine Or.inl ⟨m, hm, ?_⟩
          rcases hsrc with h5 | ⟨q', hq', he⟩
          · exact Or.inl h5
          · exact Or.inr ⟨q', List.mem_cons_of_mem _ hq', he⟩
        · exact Or.inr (List.mem_cons_of_mem _ h4)

/-- Invariant preservation over the two-level dict: a property of the
inner pairs survives a dict2Insert when the inserted pair has it. -/
theorem dict2Insert_pres {P : String × Int → Prop}
    {d : List (String × List (String × Int))} {k1 k2 : String} {v : Int}
    (hd : ∀ p ∈ d, ∀ kv ∈ p.2, P kv) (hv : P (k2, v)) :
    ∀ p ∈ dict2Insert d k1 k2 v, ∀ kv ∈ p.2, P kv := by
  intro p hp kv hkv
  rcases dict2Insert_mem hp with ⟨m, hm, hsrc⟩ | hold
  · rw [hm] at hkv
    have hmP : ∀ kv ∈ m, P kv := by
      rcases hsrc with h5 | ⟨q, hq, he⟩
      · subst h5; intro kv h; cases h
      · exact he ▸ hd q hq
    exact dictInsert_pres hmP hv kv hkv
  · exact hd p hold kv hkv

theorem insStable_mem {α : Type} {lt : α → α → Bool} {x y : α} {l : List α}
    (h : y ∈ insStable lt x l) : y = x ∨ y ∈ l := by
  induction l with
  | nil => simp [insStable] at h; exact Or.inl h
  | cons z zs ih =>
    simp only [insStable] at h
    by_cases hc : lt z x
    · rw [if_pos hc] at h
      rcases List.mem_cons.mp h with h1 | h2
      · exact Or.inr (h1 ▸ List.mem_cons_self _ _)
      · rcases ih h2 with h3 | h4
        · exact Or.inl h3
        · exact Or.inr (List.mem_cons_of_mem _ h4)
    · rw [if_neg hc] at h
      rcases List.mem_cons.mp h with h1 | h2
      · exact Or.inl h1
      · exact Or.inr h2

theorem sortStable_mem {α : Type} {lt : α → α → Bool} {x : α} {l : List α}
    (h : x ∈ sortStable lt l) : x ∈ l := by
  induction l with
  | nil => simp [sortStable] at h
  | cons z zs ih =>
    simp only [sortStable, List.foldr_cons] at h
    rcases insStable_mem h with h1 | h2
    · exact h1 ▸ List.mem_cons_self _ _
    · exact List.mem_cons_of_mem _ (ih h2)

theorem tblFind_mem {α : Type} {tbl : List (String × α)} {k : String} {v : α}
    (h : tblFind tbl k = some v) : ∃ p ∈ tbl, p.1 = k ∧ p.2 = v := by
  simp only [tblFind, Option.map_eq_some'] at h
  rcases h with ⟨p, hp, hv⟩
  refine ⟨p, List.mem_of_find?_eq_some hp, ?_, hv⟩
  have := List.find?_some hp
  exact of_decide_eq_true this

end Huntstack

namespace Huntstack

/-! ## Substring occurrence lemmas -/

theorem isPrefixOf_iff_exists {n s : List Char} :
    n.isPrefixOf s = true ↔ ∃ b, s = n ++ b := by
  constructor
  · intro h
    rcases List.isPrefixOf_iff_prefix.mp h with ⟨b, hb⟩
    exact ⟨b, hb.symm⟩
  · rintro ⟨b, hb⟩
    exact List.isPrefixOf_iff_prefix.mpr ⟨b, hb.symm⟩

theorem strContains_iff {s n : List Char} :
    strContains s n = true ↔ ∃ a b, s = a ++ n ++ b := by
  induction s with
  | nil =>
    rw [strContains]
    constructor
    · intro h
      simp only [List.isPrefixOf] at h
      split at h
      · exact ⟨[], [], by simp_all⟩
      · simp at h
    · rintro ⟨a, b, hab⟩
      have ha : a = [] := by
        cases a with
        | nil => rfl
        | cons x xs => simp at hab
      have hn : n = [] := by
        subst ha
        cases n with
        | nil => rfl
        | cons x xs => simp at hab
      subst ha; subst hn
      simp [List.isPrefixOf]
  | cons c cs ih =>
    rw [strContains]
    constructor
    · intro h
      split at h
      · next hpre =>
        rcases isPrefixOf_iff_exists.mp hpre with ⟨b, hb⟩
        exact ⟨[], b, by simp [hb]⟩
      · next hpre =>
        rcases ih.mp h with ⟨a, b, hab⟩
        exact ⟨c :: a, b, by simp [hab]⟩
    · rintro ⟨a, b, hab⟩
      split
      · rfl
      · next hpre =>
        cases a with
        | nil =>
          exfalso
          apply hpre
          simp only [List.nil_append] at hab
          exact isPrefixOf_iff_exists.mpr ⟨b, hab⟩
        | cons x xs =>
          simp only [List.cons_append] at hab
          cases hab
          exact ih.mpr ⟨xs, b, by simp⟩

/-- Occurrence is monotone under taking a superstring. -/
theorem strContains_of_inner {t n a b : List Char}
    (h : strContains t n = true) :
    strContains (a ++ t ++ b) n = true := by
  rcases strContains_iff.mp h with ⟨x, y, hxy⟩
  exact strContains_iff.mpr ⟨a ++ x, y ++ b, by simp [hxy]⟩

/-- Peeling leading characters that the occurrence head rejects: when
the needle starts with a non-p character, an occurrence survives
dropWhile p. -/
theorem strContains_dropWhile_aux {p : Char → Bool} {h0 : Char} {n' b : List Char}
    (hh : p h0 = false) :
    ∀ a, strContains ((a ++ (h0 :: n') ++ b).dropWhile p) (h0 :: n') = true := by
  intro a
  induction a with
  | nil =>
    simp only [List.nil_append, List.cons_append, List.dropWhile_cons, hh,
      Bool.false_eq_true, if_false]
    exact strContains_iff.mpr ⟨[], b, by simp⟩
  | cons c cs ih =>
    simp only [List.cons_append, List.dropWhile_cons]
    by_cases hc : p c
    · simp only [hc, if_true]
      simpa using ih
    · simp only [hc, Bool.false_eq_true, if_false]
      exact strContains_iff.mpr ⟨c :: cs, b, by simp⟩

theorem strContains_dropWhile {p : Char → Bool} {s : List Char}
    {h0 : Char} {n' : List Char} (hh : p h0 = false)
    (h : strContains s (h0 :: n') = true) :
    strContains (s.dropWhile p) (h0 :: n') = true := by
  rcases strContains_iff.mp h with ⟨a, b, hab⟩
  subst hab
  exact strContains_dropWhile_aux hh a

theorem strContains_reverse {s n : List Char}
    (h : strContains s n = true) :
    strContains s.reverse n.reverse = true := by
  rcases strContains_iff.mp h with ⟨a, b, hab⟩
  refine strContains_iff.mpr ⟨b.reverse, a.reverse, ?_⟩
  simp [hab]

/-- A needle whose first and last characters are not whitespace occurs
in the stripped string whenever it occurs at all (stripping removes
only whitespace margins, which such a needle cannot straddle). -/
theorem strContains_pyStrip {s n : List Char} {h0 hl : Char} {n1 n2 : List Char}
    (hcons : n = h0 :: n1) (hrev : n.reverse = hl :: n2)
    (hh0 : pyIsSpace h0 = false) (hhl : pyIsSpace hl = false)
    (h : strContains s n = true) : strContains (pyStrip s) n = true := by
  subst hcons
  have h1 : strContains (s.dropWhile pyIsSpace) (h0 :: n1) = true :=
    strContains_dropWhile hh0 h
  have h2 := strContains_reverse h1
  rw [hrev] at h2
  have h3 := @strContains_dropWhile pyIsSpace _ _ _ hhl h2
  have h4 := strContains_reverse h3
  have h5 : (hl :: n2).reverse = h0 :: n1 := by
    rw [← hrev, List.reverse_reverse]
  rw [h5] at h4
  rw [pyStrip]
  exact h4

/-! ## Decomposition lemmas: strip and suffix-code removal sit inside
the original string -/

theorem dropWhile_decomp (p : Char → Bool) (l : List Char) :
    ∃ a, l = a ++ l.dropWhile p :=
  ⟨l.takeWhile p, (List.takeWhile_append_dropWhile p l).symm⟩

theorem pyStrip_decomp (s : List Char) : ∃ a b, s = a ++ pyStrip s ++ b := by
  rcases dropWhile_decomp pyIsSpace s with ⟨a, ha⟩
  rcases dropWhile_decomp pyIsSpace (s.dropWhile pyIsSpace).reverse with ⟨c, hc⟩
  refine ⟨a, c.reverse, ?_⟩
  have hmid : s.dropWhile pyIsSpace = pyStrip s ++ c.reverse := by
    have h2 := congrArg List.reverse hc
    simp only [List.reverse_append, List.reverse_reverse] at h2
    rw [pyStrip]
    exact h2
  conv_lhs => rw [ha, hmid]
  simp [List.append_assoc]

theorem stripCodeSuffix_decomp (s : List Char) :
    ∃ b, s = stripCodeSuffix s ++ b := by
  unfold stripCodeSuffix
  split
  · next r1 heq =>
    split
    · next r3 hcode hpar =>
      have hE := List.takeWhile_append_dropWhile pyIsSpace s.reverse
      rw [heq] at hE
      have hr1 := List.takeWhile_append_dropWhile ccCodeChar r1
      rw [hpar] at hr1
      have hr3 := List.takeWhile_append_dropWhile pyIsSpace r3
      refine ⟨(s.reverse.takeWhile pyIsSpace ++
        (')' :: (r1.takeWhile ccCodeChar ++ ('(' :: r3.takeWhile pyIsSpace)))).reverse, ?_⟩
      have hs : s = ((s.reverse.takeWhile pyIsSpace) ++ (')' :: r1)).reverse := by
        rw [hE, List.reverse_reverse]
      have hr3' : r3.reverse =
          (r3.dropWhile pyIsSpace).reverse ++ (r3.takeWhile pyIsSpace).reverse := by
        conv_lhs => rw [← hr3]
        rw [List.reverse_append]
      conv_lhs => rw [hs, ← hr1]
      simp only [List.reverse_append, List.reverse_cons, List.append_assoc,
        List.cons_append, List.nil_append]
      rw [hr3']
      simp [List.append_assoc]
    · exact ⟨[], by simp⟩
  · exact ⟨[], by simp⟩

/-- pyLower is a list map, so it distributes over the decompositions. -/
theorem pyLower_append (a b : List Char) :
    pyLower (a ++ b) = pyLower a ++ pyLower b := by
  simp [pyLower]

end Huntstack

namespace Huntstack

/-! ## Shape lemmas for the LDWF parser -/

theorem strftimeYMD_ne_empty (x : Nat × Nat × Nat) : strftimeYMD x ≠ "" := by
  obtain ⟨y, m, d⟩ := x
  simp only [strftimeYMD]
  intro hcontra
  have h2 : zpad 4 y ++ '-' :: (zpad 2 m ++ '-' :: zpad 2 d) = ([] : List Char) :=
    congrArg String.data hcontra
  rcases List.append_eq_nil.mp h2 with ⟨-, h3⟩
  exact List.cons_ne_nil _ _ h3

/-- The six display names the LDWF parser can ever emit. -/
def ldwfNames : List String :=
  ["Mallard", "Green-winged Teal", "Blue-winged Teal", "Northern Pintail",
   "Snow Goose", "Greater White-fronted Goose"]

theorem ldwf_map_names :
    ∀ p ∈ LDWF_SPECIES_MAP, p.2.getD ("Mallard") ∈ ldwfNames := by decide

/-- Invariant of the LDWF count dictionaries: keys from the fixed name
list, values positive. -/
def LdwfInv (kv : String × Int) : Prop := kv.1 ∈ ldwfNames ∧ 0 < kv.2

theorem insertPosCount_inv {counts : List (String × Int)} {name : String}
    {num? : Option (List Char)} (hname : name ∈ ldwfNames)
    (hc : ∀ kv ∈ counts, LdwfInv kv) :
    ∀ kv ∈ insertPosCount counts name num?, LdwfInv kv := by
  cases num? with
  | none => exact hc
  | some lastNum =>
    simp only [insertPosCount]
    cases hp : parse_count_value lastNum with
    | none => exact hc
    | some total =>
      dsimp only
      by_cases hpos : total > 0
      · rw [if_pos hpos]
        exact dictInsert_pres hc ⟨hname, hpos⟩
      · rw [if_neg hpos]
        exact hc

theorem ldwfFormatB_inv {stripped upper : List Char} {counts : List (String × Int)}
    (tbl : List (String × Option String))
    (htbl : ∀ p ∈ tbl, p.2.getD ("Mallard") ∈ ldwfNames)
    (hc : ∀ kv ∈ counts, LdwfInv kv) :
    ∀ kv ∈ ldwfFormatB tbl stripped upper counts, LdwfInv kv := by
  induction tbl with
  | nil => exact hc
  | cons p rest ih =>
    obtain ⟨key, mapped⟩ := p
    have hrest : ∀ q ∈ rest, q.2.getD ("Mallard") ∈ ldwfNames := by
      intro q hq; exact htbl q (List.mem_cons_of_mem _ hq)
    cases mapped with
    | none => exact ih hrest
    | some mappedName =>
      have hname : mappedName ∈ ldwfNames := htbl (key, some mappedName) (List.mem_cons_self _ _)
      simp only [ldwfFormatB]
      split
      · exact insertPosCount_inv hname hc
      · exact ih hrest

theorem ldwfLinesGo_inv (lines : List (List Char)) :
    ∀ (prevLine : Option (List Char)) (counts : List (String × Int)),
    (∀ kv ∈ counts, LdwfInv kv) →
    ∀ kv ∈ ldwfLinesGo prevLine lines counts, LdwfInv kv := by
  induction lines with
  | nil => intro prevLine counts hc; exact hc
  | cons line rest ih =>
    intro prevLine counts hc
    simp only [ldwfLinesGo]
    apply ih
    split
    · next mapped hfind =>
      cases mapped with
      | none => exact hc
      | some mappedName =>
        have hname : mappedName ∈ ldwfNames := by
          rcases tblFind_mem hfind with ⟨p, hp, -, hv⟩
          have := ldwf_map_names p hp
          rw [hv] at this
          exact this
        cases prevLine with
        | none => exact hc
        | some pl => exact insertPosCount_inv hname hc
    · exact ldwfFormatB_inv LDWF_SPECIES_MAP ldwf_map_names hc

theorem ldwfGooseStep_inv {r : RE} {name : String} {text : List Char}
    {counts : List (String × Int)} (hname : name ∈ ldwfNames)
    (hc : ∀ kv ∈ counts, LdwfInv kv) :
    ∀ kv ∈ ldwfGooseStep r name text counts, LdwfInv kv := by
  simp only [ldwfGooseStep]
  split
  · exact hc
  · split
    · exact hc
    · split
      · exact hc
      · next v _ =>
        split
        · next hcond =>
          simp only [Bool.and_eq_true, decide_eq_true_eq] at hcond
          exact dictInsert_pres hc ⟨hname, by omega⟩
        · exact hc

end Huntstack

namespace Huntstack

theorem ldwfFinish_shape {t : List Char} {sd : String} {r : ParseResult}
    (h : ldwfFinish t sd = some r) :
    r.species_counts ≠ [] ∧ r.survey_date = sd ∧
    ∀ kv ∈ r.species_counts, kv.1 ∈ ldwfNames ∧ 0 < kv.2 := by
  simp only [ldwfFinish] at h
  split at h
  · exact absurd h (by simp)
  · next hne =>
    have hr := (Option.some.injEq _ _).mp h
    have hinv : ∀ kv ∈ ldwfGooseStep reGooseWf ("Greater White-fronted Goose") t
        (ldwfGooseStep reGooseSnow ("Snow Goose") t (ldwfLinesGo none (splitNl t) [])) ,
        LdwfInv kv := by
      apply ldwfGooseStep_inv (by decide)
      apply ldwfGooseStep_inv (by decide)
      apply ldwfLinesGo_inv
      intro kv hkv
      cases hkv
    constructor
    · rw [← hr]
      simpa using hne
    · constructor
      · rw [← hr]
      · intro kv hkv
        rw [← hr] at hkv
        exact hinv kv hkv

/-- Everything parse_ldwf_pdf guarantees about a successful result: the
species dictionary is nonempty, the survey date is a nonempty formatted
date, the date pattern matched the text, and every entry has a
whitelisted display name and a positive count. -/
theorem ldwf_some_shape {t : List Char} {r : ParseResult}
    (h : parse_ldwf_pdf (some t) = some r) :
    r.species_counts ≠ [] ∧ r.survey_date ≠ "" ∧
    reSearch ldwfDateRE t ≠ none ∧
    ∀ kv ∈ r.species_counts, kv.1 ∈ ldwfNames ∧ 0 < kv.2 := by
  simp only [parse_ldwf_pdf] at h
  split at h
  · exact absurd h (by simp)
  · split at h
    · exact absurd h (by simp)
    · next st hsearch =>
      split at h
      · exact absurd h (by simp)
      · split at h
        · next ymd hfmt =>
          rcases ldwfFinish_shape h with ⟨h1, h2, h3⟩
          exact ⟨h1, h2 ▸ strftimeYMD_ne_empty ymd, by simp [hsearch], h3⟩
        · split at h
          · next ymd hfmt =>
            rcases ldwfFinish_shape h with ⟨h1, h2, h3⟩
            exact ⟨h1, h2 ▸ strftimeYMD_ne_empty ymd, by simp [hsearch], h3⟩
          · exact absurd h (by simp)

end Huntstack

namespace Huntstack

/-! ## Shape lemmas for the AGFC parser -/

/-- The four display names the AGFC parser can ever emit. -/
def agfcNames : List String :=
  ["Mallard", "Snow/Ross's Goose", "Greater White-fronted Goose", "Canada Goose"]

theorem agfcSearchInsert_keys {r : RE} {name : String} {text : List Char}
    {counts : List (String × Int)} (hname : name ∈ agfcNames)
    (hc : ∀ kv ∈ counts, kv.1 ∈ agfcNames) :
    ∀ kv ∈ agfcSearchInsert r name text counts, kv.1 ∈ agfcNames := by
  simp only [agfcSearchInsert]
  split
  · exact hc
  · split
    · exact hc
    · split
      · exact hc
      · split
        · exact dictInsert_pres hc hname
        · exact hc

theorem agfcTryFormats_shape {ds : List Char} {s : String}
    (h : agfcTryFormats ds = some s) : ∃ x, s = strftimeYMD x := by
  simp only [agfcTryFormats] at h
  split at h
  · exact ⟨_, ((Option.some.injEq _ _).mp h).symm⟩
  · split at h
    · exact ⟨_, ((Option.some.injEq _ _).mp h).symm⟩
    · split at h
      · exact ⟨_, ((Option.some.injEq _ _).mp h).symm⟩
      · split at h
        · exact ⟨_, ((Option.some.injEq _ _).mp h).symm⟩
        · exact absurd h (by simp)

theorem parse_agfc_date_shape {t : List Char} {s : String}
    (h : parse_agfc_date t = some s) : ∃ x, s = strftimeYMD x := by
  simp only [parse_agfc_date] at h
  have hfrom : ∀ (p : RE), agfcDateFromPattern p t = some s → ∃ x, s = strftimeYMD x := by
    intro p hp
    simp only [agfcDateFromPattern] at hp
    split at hp
    · exact absurd hp (by simp)
    · split at hp
      · exact absurd hp (by simp)
      · exact agfcTryFormats_shape hp
  split at h
  · next hp => exact hfrom agfcP1 ((Option.some.injEq _ _).mp h ▸ hp)
  · exact hfrom agfcP2 h

theorem agfcCounts_keys (t : List Char) :
    ∀ kv ∈ agfcCounts t, kv.1 ∈ agfcNames := by
  have hbase : ∀ kv ∈ (if agfcMallardCounts t ≠ [] then
      dictInsert [] ("Mallard") ((agfcMallardCounts t).foldl (· + ·) 0)
      else []), kv.1 ∈ agfcNames := by
    split
    · intro kv hkv
      rcases dictInsert_mem hkv with ⟨h1, -⟩ | h2
      · rw [h1]; decide
      · cases h2
    · intro kv hkv; cases hkv
  exact agfcSearchInsert_keys (by decide)
    (agfcSearchInsert_keys (by decide)
      (agfcSearchInsert_keys (by decide) hbase))

/-- Everything parse_agfc_pdf guarantees about a successful result. -/
theorem agfc_some_shape {t : List Char} {r : ParseResult}
    (h : parse_agfc_pdf (some t) = some r) :
    r.species_counts ≠ [] ∧ r.survey_date ≠ "" ∧
    parse_agfc_date t ≠ none ∧
    ∀ kv ∈ r.species_counts, kv.1 ∈ agfcNames := by
  simp only [parse_agfc_pdf] at h
  split at h
  · exact absurd h (by simp)
  · split at h
    · exact absurd h (by simp)
    · next survey_date hdate =>
      split at h
      · exact absurd h (by simp)
      · next hne =>
        have hr := (Option.some.injEq _ _).mp h
        refine ⟨?_, ?_, ?_, ?_⟩
        · rw [← hr]; simpa using hne
        · rcases parse_agfc_date_shape hdate with ⟨x, hx⟩
          rw [← hr]
          simpa [hx] using strftimeYMD_ne_empty x
        · rw [hdate]; simp
        · intro kv hkv
          rw [← hr] at hkv
          exact agfcCounts_keys t kv hkv

end Huntstack

namespace Huntstack

/-! ## Shape lemmas for the Loess Bluffs parser -/

theorem loessCounts_pos (t : List Char) :
    ∀ kv ∈ loessCounts t, 0 < kv.2 := by
  unfold loessCounts
  refine foldl_inv
    (fun (counts : List (String × Int)) => ∀ kv ∈ counts, 0 < kv.2) _ _ _ ?_ ?_
  · intro kv hkv; cases hkv
  · intro counts m hc
    dsimp only
    split
    · next g1 g2 hg1 hg2 =>
      split
      · exact hc
      · split
        · exact hc
        · split
          · exact hc
          · split
            · exact hc
            · split
              · next hpos => exact dictInsert_pres hc hpos
              · exact hc
    · exact hc

/-- Everything parse_loess_bluffs_pdf guarantees about a successful
result: nonempty counts, the header date pattern matched, and all
counts positive. -/
theorem loess_some_shape {t : List Char} {r : ParseResult}
    (h : parse_loess_bluffs_pdf (some t) = some r) :
    r.species_counts ≠ [] ∧ reSearch reLoessDate t ≠ none ∧
    ∀ kv ∈ r.species_counts, 0 < kv.2 := by
  simp only [parse_loess_bluffs_pdf] at h
  split at h
  · exact absurd h (by simp)
  · split at h
    · exact absurd h (by simp)
    · next st hsearch =>
      split at h
      · exact absurd h (by simp)
      · split at h
        · exact absurd h (by simp)
        · next hne =>
          have hr := (Option.some.injEq _ _).mp h
          refine ⟨?_, by simp [hsearch], ?_⟩
          · rw [← hr]; simpa using hne
          · intro kv hkv
            rw [← hr] at hkv
            exact loessCounts_pos t kv hkv

end Huntstack

namespace Huntstack

/-! ## Shape lemmas for the shared table extractor and the Clarence
Cannon parser -/

/-- Invariant of extract_table_counts entries: positive count, and the
lowercased key contains neither total nor grand. -/
def EtcInv (kv : String × Int) : Prop :=
  0 < kv.2 ∧ strContains (pyLower kv.1.toList) (("total").toList) = false ∧
  strContains (pyLower kv.1.toList) (("grand").toList) = false

theorem extract_table_counts_inv (tables : List (List (List String))) :
    ∀ kv ∈ extract_table_counts tables, EtcInv kv := by
  unfold extract_table_counts
  refine foldl_inv
    (fun (acc : List (String × Int)) => ∀ kv ∈ acc, EtcInv kv) _ _ _ ?_ ?_
  · intro kv h; cases h
  · intro acc table hacc
    refine foldl_inv
      (fun (acc2 : List (String × Int)) => ∀ kv ∈ acc2, EtcInv kv) _ _ _ hacc ?_
    intro acc2 row hacc2
    dsimp only
    split
    · next name rest2 tail2 last hcells =>
      split
      · exact hacc2
      · split
        · exact hacc2
        · next hng =>
          split
          · exact hacc2
          · split
            · next hpos =>
              apply dictInsert_pres hacc2
              simp only [Bool.or_eq_true, not_or] at hng
              refine ⟨hpos, ?_, ?_⟩
              · exact Bool.not_eq_true _ ▸ (Bool.eq_false_iff.mpr hng.1)
              · exact Bool.not_eq_true _ ▸ (Bool.eq_false_iff.mpr hng.2)
            · exact hacc2
    · exact hacc2

/-- Invariant of the Clarence Cannon per-date species dictionaries:
nonzero count, and the lowercased key never contains total. -/
def CcInv (kv : String × Int) : Prop :=
  kv.2 ≠ 0 ∧ strContains (pyLower kv.1.toList) (("total").toList) = false

/-- A row that passes the skip filter cannot produce a species name
containing total: the name is an infix of the first cell, so an
occurrence would survive into the normalized cell the filter checked. -/
theorem cc_key_no_total {firstL : List Char}
    (hskip : ccIsSkipRow firstL = false) :
    strContains (pyLower (pyStrip (stripCodeSuffix firstL))) (("total").toList) = false := by
  by_contra hcon
  have hcon' : strContains (pyLower (pyStrip (stripCodeSuffix firstL)))
      (("total").toList) = true := by
    cases hde : strContains (pyLower (pyStrip (stripCodeSuffix firstL))) (("total").toList)
    · exact absurd hde hcon
    · rfl
  rcases pyStrip_decomp (stripCodeSuffix firstL) with ⟨a, b, hab⟩
  rcases stripCodeSuffix_decomp firstL with ⟨c, hc⟩
  have hfull : firstL = a ++ pyStrip (stripCodeSuffix firstL) ++ (b ++ c) := by
    conv_lhs => rw [hc]
    conv_lhs => rw [hab]
    simp [List.append_assoc]
  have hlow : pyLower firstL =
      pyLower a ++ pyLower (pyStrip (stripCodeSuffix firstL)) ++ pyLower (b ++ c) := by
    conv_lhs => rw [hfull]
    rw [pyLower_append, pyLower_append]
  have hin : strContains (pyLower firstL) (("total").toList) = true := by
    rw [hlow]
    exact strContains_of_inner hcon'
  have hstrip : strContains (pyStrip (pyLower firstL)) (("total").toList) = true :=
    @strContains_pyStrip (pyLower firstL) (("total").toList) 't' 'l'
      (("otal").toList) (("atot").toList)
      (by decide) (by decide) (by decide) (by decide) hin
  simp only [ccIsSkipRow] at hskip
  split at hskip
  · exact absurd hskip (by simp)
  · have hmem : ("total" : String) ∈ CC_SKIP_NAMES := by decide
    have : CC_SKIP_NAMES.any
        (fun sk => strContains (pyStrip (pyLower firstL)) sk.toList) = true :=
      List.any_eq_true.mpr ⟨("total" : String), hmem, hstrip⟩
    rw [hskip] at this
    exact absurd this (by simp)

theorem ccPass2_inv (dateCols : List String) (rows : List (List String)) :
    ∀ p ∈ ccPass2 dateCols rows, ∀ kv ∈ p.2, CcInv kv := by
  unfold ccPass2
  refine foldl_inv
    (fun (acc : List (String × List (String × Int))) =>
      ∀ p ∈ acc, ∀ kv ∈ p.2, CcInv kv) _ _ _ ?_ ?_
  · intro p hp; cases hp
  · intro acc row hacc
    dsimp only
    split
    · exact hacc
    · next first dataCells =>
      split
      · exact hacc
      · split
        · exact hacc
        · next hskip =>
          split
          · exact hacc
          · next hne =>
            refine foldl_inv
              (fun (acc2 : List (String × List (String × Int))) =>
                ∀ p ∈ acc2, ∀ kv ∈ p.2, CcInv kv) _ _ _ hacc ?_
            intro acc2 cellDate hacc2
            dsimp only
            split
            · exact hacc2
            · split
              · exact hacc2
              · split
                · exact hacc2
                · next hcnt =>
                  apply dict2Insert_pres hacc2
                  refine ⟨hcnt, ?_⟩
                  have hskip' : ccIsSkipRow first.toList = false :=
                    Bool.eq_false_iff.mpr hskip
                  exact cc_key_no_total hskip'

theorem cc_records_shape (rows : List (List String)) :
    ∀ rec ∈ parse_clarence_cannon_html rows, ∀ kv ∈ rec.species_counts, CcInv kv := by
  intro rec hrec kv hkv
  simp only [parse_clarence_cannon_html] at hrec
  split at hrec
  · cases hrec
  · split at hrec
    · cases hrec
    · split at hrec
      · cases hrec
      · rcases List.mem_map.mp hrec with ⟨p, hps, hrec_eq⟩
        have hp := sortStable_mem hps
        have hinv := ccPass2_inv _ rows p hp
        subst hrec_eq
        exact hinv kv hkv

end Huntstack

namespace Huntstack

/-! ## Shape lemma for the LLM validation stage -/

theorem llm_some_shape {t : List Char} {resp : Option LlmData} {r : LlmResult}
    (h : extract_bird_counts_from_text t resp = some r) :
    r.species_counts ≠ [] ∧
    (pyStrptimeDate ("%Y-%m-%d") r.survey_date.toList).isSome = true ∧
    ∀ kv ∈ r.species_counts, kv.1 ≠ "" := by
  simp only [extract_bird_counts_from_text] at h
  split at h
  · exact absurd h (by simp)
  · split at h
    · exact absurd h (by simp)
    · next data =>
      split at h
      · exact absurd h (by simp)
      · next hne =>
        split at h
        · exact absurd h (by simp)
        · split at h
          · next s =>
            split at h
            · exact absurd h (by simp)
            · next hdate =>
              have hr := (Option.some.injEq _ _).mp h
              have hclean : ∀ kv ∈ data.species_counts.foldl (fun acc nc =>
                  if nc.1 = "" || jFalsy nc.2 then acc
                  else
                    match jToInt nc.2 with
                    | none => acc
                    | some i => dictInsert acc nc.1 i) [], (fun kv => kv.1 ≠ "") kv := by
                refine foldl_inv
                  (fun (acc : List (String × Int)) => ∀ kv ∈ acc, kv.1 ≠ "") _ _ _ ?_ ?_
                · intro kv hkv; cases hkv
                · intro acc nc hacc
                  dsimp only
                  split
                  · exact hacc
                  · next hguard =>
                    simp only [Bool.or_eq_true, not_or, decide_eq_true_eq] at hguard
                    split
                    · exact hacc
                    · exact dictInsert_pres hacc hguard.1
              refine ⟨?_, ?_, ?_⟩
              · rw [← hr]; simpa using hne
              · rw [← hr]
                simp only [String.toList] at hdate
                simp [hdate]
              · intro kv hkv
                rw [← hr] at hkv
                exact hclean kv hkv
          · exact absurd h (by simp)

/-! ## Dispatch lemmas for the TPWD Excel parser -/

/-- A file name containing the estimates marker forces the historical
layout regardless of workbook structure. -/
theorem tpwd_fname_estimates {wb : Workbook} {f : String}
    (h : strContains (pyLower f.toList) (("estimates").toList) = true) :
    parse_tpwd_excel wb f = _parse_historical wb := by
  simp only [parse_tpwd_excel, h, Bool.or_true, if_true]

/-- A file name matching none of the markers falls back to structural
detection: the per-sheet layout first, then the historical one. -/
theorem tpwd_fname_unknown {wb : Workbook} {f : String}
    (h1 : strContains (pyLower f.toList) (("estimates_97").toList) = false)
    (h2 : strContains (pyLower f.toList) (("estimates").toList) = false)
    (h3 : strContains (pyLower f.toList) (("yearly-summary").toList) = false)
    (h4 : strContains (pyLower f.toList) (("yearly_summary").toList) = false)
    (h5 : strContains (pyLower f.toList) (("summary").toList) = false) :
    parse_tpwd_excel wb f =
      (if _parse_yearly_summary wb = [] then _parse_historical wb
       else _parse_yearly_summary wb) := by
  simp only [String.toList] at h1 h2 h3 h4 h5
  simp [parse_tpwd_excel, String.toList, h1, h2, h3, h4, h5]

/-- The historical layout is recognized by its known sheet name: a
workbook without that sheet yields nothing from it. -/
theorem tpwd_historical_needs_sheet {wb : Workbook}
    (h : wbGet wb ("State Wide estimates") = none) :
    _parse_historical wb = [] := by
  simp only [_parse_historical, h]

/-! ## Resolver lemmas -/

/-- Values reachable from the alias table. -/
def aliasVals : List String := SPECIES_ALIASES.map (·.2)

/-- Values reachable from the MWI table (the tracked entries). -/
def mwiVals : List String := MWI_COLUMN_MAPPING.filterMap (·.2)

/-- Values reachable from the refuge table (the tracked entries). -/
def refugeVals : List String := REFUGE_SURVEY_MAPPING.filterMap (·.2)

theorem alias_vals_ne_empty : ∀ v ∈ aliasVals, v ≠ "" := by decide

/-- A hit in the alias table is returned unchanged (its values are all
truthy). -/
theorem resolve_alias_hit {name : String} {slug : String}
    (h : tblFind SPECIES_ALIASES (⟨pyLower (pyStrip name.toList)⟩ : String) = some slug) :
    resolve_species_slug name = some slug := by
  have hno : name ≠ "" := by
    intro he
    subst he
    have hmiss : tblFind SPECIES_ALIASES (⟨pyLower (pyStrip ("").toList)⟩ : String) = none := by
      decide
    rw [hmiss] at h
    cases h
  have hslug : slug ≠ "" := by
    rcases tblFind_mem h with ⟨p, hp, -, hv⟩
    have : p.2 ∈ aliasVals := List.mem_map.mpr ⟨p, hp, rfl⟩
    exact hv ▸ alias_vals_ne_empty p.2 this
  simp only [resolve_species_slug]
  rw [if_neg hno, h]
  dsimp only
  rw [if_pos hslug]

/-- An alias miss defers to the source-specific tables. -/
theorem resolve_alias_miss {name : String}
    (h : tblFind SPECIES_ALIASES (⟨pyLower (pyStrip name.toList)⟩ : String) = none) :
    resolve_species_slug name = resolve_source_tables name := by
  by_cases hno : name = ""
  · subst hno
    simp only [resolve_species_slug, if_true]
    decide
  · simp only [resolve_species_slug, hno, if_false, h]

/-- Within the source tables, the MWI table is consulted first. -/
theorem resolve_mwi_first {name : String} {v : String}
    (h : tblFind MWI_COLUMN_MAPPING (⟨pyStrip name.toList⟩ : String) = some (some v)) :
    resolve_source_tables name = some v := by
  simp only [resolve_source_tables, h]

/-- Closure of the source-table stage. -/
theorem resolve_tables_closure {name : String} {s : String}
    (h : resolve_source_tables name = some s) :
    s ∈ aliasVals ∨ s ∈ mwiVals ∨ s ∈ refugeVals := by
  simp only [resolve_source_tables] at h
  split at h
  · next v hfind =>
    have hs := (Option.some.injEq _ _).mp h
    rcases tblFind_mem hfind with ⟨p, hp, -, hv⟩
    refine Or.inr (Or.inl (List.mem_filterMap.mpr ⟨p, hp, ?_⟩))
    rw [hv, hs]
  · exact absurd h (by simp)
  · split at h
    · next v hfind =>
      have hs := (Option.some.injEq _ _).mp h
      rcases tblFind_mem hfind with ⟨p, hp, -, hv⟩
      refine Or.inr (Or.inr (List.mem_filterMap.mpr ⟨p, hp, ?_⟩))
      rw [hv, hs]
    · exact absurd h (by simp)
    · exact absurd h (by simp)

/-- The resolver never invents a slug: a successful resolution is a
value of one of the three tables. -/
theorem resolve_closure {name : String} {s : String}
    (h : resolve_species_slug name = some s) :
    s ∈ aliasVals ∨ s ∈ mwiVals ∨ s ∈ refugeVals := by
  simp only [resolve_species_slug] at h
  split at h
  · exact absurd h (by simp)
  · split at h
    · next slug hfind =>
      split at h
      · have hs := (Option.some.injEq _ _).mp h
        rcases tblFind_mem hfind with ⟨p, hp, -, hv⟩
        exact Or.inl (List.mem_map.mpr ⟨p, hp, hs ▸ hv⟩)
      · exact resolve_tables_closure h
    · exact resolve_tables_closure h

/-- A miss in every table returns none. -/
theorem resolve_total_miss {name : String}
    (h1 : tblFind SPECIES_ALIASES (⟨pyLower (pyStrip name.toList)⟩ : String) = none)
    (h2 : tblFind MWI_COLUMN_MAPPING (⟨pyStrip name.toList⟩ : String) = none)
    (h3 : tblFind REFUGE_SURVEY_MAPPING (⟨pyStrip name.toList⟩ : String) = none) :
    resolve_species_slug name = none := by
  rw [resolve_alias_miss h1]
  simp only [resolve_source_tables, h2, h3]

end Huntstack

namespace Huntstack

/-! ## Concrete demonstration inputs -/

/-- An LDWF page-0 text in the 2023+ layout: numbers line above the
species-name line. -/
def ldwfDemoText : List Char :=
  ("Louisiana Aerial Waterfowl Survey\nJanuary 15, 2026\nSPECIES SOUTHWEST SOUTHEAST LRB TOTALS\n2,000 2,000 2,000 6,000\nMALLARD\n").toList

/-- A Loess Bluffs survey text whose species table holds an aggregate
Total Ducks row (a label absent from the parser's skip set). -/
def loessAggText : List Char :=
  ("Loess Bluffs National Wildlife Refuge Waterfowl Survey\nDate: 2026-01-06\nweekly waterfowl counts by species group\nTotal Ducks 5,000\n").toList

/-- The Clarence Cannon table of the specification example: one header
row and one data row with a zero second column. -/
def ccDemoRows : List (List String) :=
  [["SPECIES & CODE", "10/3/22", "10/11/22"],
   ["Mallard (MALL)", "150", "0"]]

/-- A Clarence Cannon table with a negative numeric cell. -/
def ccNegRows : List (List String) :=
  [["SPECIES & CODE", "10/3/22"],
   ["Mallard (MALL)", "-5"]]

/-- A table for the shared HTML extractor. -/
def etcDemoTables : List (List (List String)) :=
  [[["Species", "Count"], ["Mallard", "150"]]]

/-- A workbook in the per-sheet yearly layout (sheet name MWS 2018,
STATE TOTALS marker in header row 1, one mallard row). -/
def tpwdDemoWb : Workbook :=
  [("MWS 2018",
    [[XCell.str "Species", .blank, .blank, .blank, .blank, .blank, .blank, .blank,
      .str "Totals"],
     [.blank, .blank, .blank, .blank, .blank, .blank, .blank, .blank,
      .str "2018 STATE TOTALS"],
     [.str "Mallard", .blank, .blank, .blank, .blank, .blank, .blank, .blank,
      .num 500]])]

/-- A survey text long enough to pass the fifty-character guard of the
LLM extractor. -/
def llmDemoText : List Char :=
  ("Weekly waterfowl survey narrative text long enough to pass the length guard.").toList

/-- A model payload with an invented species and a negative count. -/
def llmBadData : LlmData :=
  { survey_date := .jstr ("2026-01-15"),
    species_counts := [("Fabricated Bird", .jint (-5))],
    observers := .jnull }

/-- A model payload that passes the validation stage. -/
def llmGoodData : LlmData :=
  { survey_date := .jstr ("2026-01-15"),
    species_counts := [("Mallard", .jint 500)],
    observers := .jnull }

/-! ## Claim C1 -/

/-- C1: each format-specific PDF parser is a total function into
Option ParseResult — the external extraction failing (or any malformed
byte string, modelled by the none outcome of pdfplumber) gives the
explicit failure value none — and a parser that cannot extract a survey
date via its date patterns, or ends with zero usable species counts,
returns none rather than a record with missing or empty fields: every
successful result has a nonempty species dictionary and (for the
strptime-formatting parsers) a nonempty survey date. -/
theorem c1_parsers_fail_closed (t : List Char) (r : ParseResult) :
    (parse_agfc_pdf none = none ∧ parse_ldwf_pdf none = none ∧
     parse_loess_bluffs_pdf none = none) ∧
    (parse_agfc_pdf (some t) = some r →
      r.species_counts ≠ [] ∧ r.survey_date ≠ "" ∧ parse_agfc_date t ≠ none) ∧
    (parse_ldwf_pdf (some t) = some r →
      r.species_counts ≠ [] ∧ r.survey_date ≠ "" ∧ reSearch ldwfDateRE t ≠ none) ∧
    (parse_loess_bluffs_pdf (some t) = some r →
      r.species_counts ≠ [] ∧ reSearch reLoessDate t ≠ none) := by
  refine ⟨⟨rfl, rfl, rfl⟩, ?_, ?_, ?_⟩
  · intro h
    rcases agfc_some_shape h with ⟨h1, h2, h3, -⟩
    exact ⟨h1, h2, h3⟩
  · intro h
    rcases ldwf_some_shape h with ⟨h1, h2, h3, -⟩
    exact ⟨h1, h2, h3⟩
  · intro h
    rcases loess_some_shape h with ⟨h1, h2, -⟩
    exact ⟨h1, h2⟩

set_option maxRecDepth 400000 in
/-- Witness for C1 at inputs where the parsers succeed. -/
theorem c1_parsers_fail_closed_witness :
    (([("Mallard", (6000 : Int))] : List (String × Int)) ≠ [] ∧
      ("2026-01-15" : String) ≠ "" ∧ reSearch ldwfDateRE ldwfDemoText ≠ none) ∧
    (([("Total Ducks", (5000 : Int))] : List (String × Int)) ≠ [] ∧
      reSearch reLoessDate loessAggText ≠ none) :=
  ⟨(c1_parsers_fail_closed ldwfDemoText
      { survey_date := "2026-01-15", species_counts := [("Mallard", 6000)],
        observers := none, notes := none, survey_type := "aerial_monthly" }).2.2.1
      (by decide),
   (c1_parsers_fail_closed loessAggText
      { survey_date := "2026-01-06", species_counts := [("Total Ducks", 5000)],
        observers := none, notes := none, survey_type := "weekly" }).2.2.2
      (by decide)⟩

/-! ## Claim C2 -/

set_option maxRecDepth 400000 in
/-- C2 counterexample: the Loess Bluffs parser emits the aggregate row
label Total Ducks as a species key — its skip set lists All Ducks,
Geese, Dabblers and Divers but not the Total spellings, so a document
using them defeats the claimed invariant. -/
theorem c2_counterexample :
    (parse_loess_bluffs_pdf (some loessAggText)).map
      (fun r => tblFind r.species_counts ("Total Ducks")) = some (some 5000) := by
  decide

/-- C2 amended: the AGFC and LDWF parsers only emit keys from fixed
whitelists that contain no aggregate labels, and the shared HTML-table
extractor and the Clarence Cannon parser filter any row whose name
contains total (the extractor also grand) as a substring; the Loess
Bluffs parser and the free-text fallback, by contrast, skip only exact
members of finite name sets, so multi-word aggregate labels can appear
there (the counterexample). -/
theorem c2_aggregate_keys (t t' : List Char) (r r' : ParseResult)
    (tables : List (List (List String))) (rows : List (List String)) :
    (∀ n ∈ ldwfNames ++ agfcNames,
      strContains (pyLower n.toList) (("total").toList) = false ∧
      strContains (pyLower n.toList) (("grand").toList) = false) ∧
    (parse_agfc_pdf (some t) = some r → ∀ kv ∈ r.species_counts, kv.1 ∈ agfcNames) ∧
    (parse_ldwf_pdf (some t') = some r' → ∀ kv ∈ r'.species_counts, kv.1 ∈ ldwfNames) ∧
    (∀ kv ∈ extract_table_counts tables,
      strContains (pyLower kv.1.toList) (("total").toList) = false ∧
      strContains (pyLower kv.1.toList) (("grand").toList) = false) ∧
    (∀ rec ∈ parse_clarence_cannon_html rows, ∀ kv ∈ rec.species_counts,
      strContains (pyLower kv.1.toList) (("total").toList) = false) := by
  refine ⟨by decide, ?_, ?_, ?_, ?_⟩
  · intro h
    exact (agfc_some_shape h).2.2.2
  · intro h
    intro kv hkv
    exact ((ldwf_some_shape h).2.2.2 kv hkv).1
  · intro kv hkv
    exact (extract_table_counts_inv tables kv hkv).2
  · intro rec hrec kv hkv
    exact (cc_records_shape rows rec hrec kv hkv).2

set_option maxRecDepth 400000 in
/-- Witness for C2 at inputs where the parsers succeed. -/
theorem c2_aggregate_keys_witness :
    (∀ kv ∈ [(("Mallard" : String), (6000 : Int))], kv.1 ∈ ldwfNames) ∧
    (∀ kv ∈ extract_table_counts etcDemoTables,
      strContains (pyLower kv.1.toList) (("total").toList) = false ∧
      strContains (pyLower kv.1.toList) (("grand").toList) = false) ∧
    (∀ rec ∈ parse_clarence_cannon_html ccDemoRows, ∀ kv ∈ rec.species_counts,
      strContains (pyLower kv.1.toList) (("total").toList) = false) :=
  ⟨by
    have h := (c2_aggregate_keys [] ldwfDemoText
      { survey_date := "", species_counts := [], observers := none,
        notes := none, survey_type := "weekly" }
      { survey_date := "2026-01-15", species_counts := [("Mallard", 6000)],
        observers := none, notes := none, survey_type := "aerial_monthly" }
      etcDemoTables ccDemoRows).2.2.1 (by decide)
    exact h,
   (c2_aggregate_keys [] [] ⟨"", [], none, none, ""⟩ ⟨"", [], none, none, ""⟩
      etcDemoTables ccDemoRows).2.2.2.1,
   (c2_aggregate_keys [] [] ⟨"", [], none, none, ""⟩ ⟨"", [], none, none, ""⟩
      etcDemoTables ccDemoRows).2.2.2.2⟩

/-! ## Claim C3 -/

/-- A ParseResult with a calendar-invalid date, a negative count — and,
in the second component, one with an empty mapping: the constructor
accepts them all. -/
def defectiveRecord : ParseResult :=
  { survey_date := "2026-02-31", species_counts := [("Mallard", -5)],
    observers := none, notes := none, survey_type := "weekly" }

/-- C3 counterexample: ParseResult is a bare dataclass with no
validator, so records with negative counts, invalid calendar dates and
empty species mappings are all constructible as ordinary values. -/
theorem c3_counterexample :
    defectiveRecord.species_counts.any (fun kv => kv.2 < 0) = true ∧
    pyStrptimeDate ("%Y-%m-%d") defectiveRecord.survey_date.toList = none ∧
    (ParseResult.mk ("2026-02-31") [] none none ("weekly")).species_counts = [] := by
  decide

/-- C3 amended: the rejection the specification assigns to the record
constructor in fact lives in the parsers — each returns none instead of
constructing a record with an empty species mapping, and the counts the
LDWF and Loess Bluffs parsers emit are never negative. -/
theorem c3_validation_in_parsers (t t1 t2 : List Char) (r r1 r2 : ParseResult) :
    (parse_agfc_pdf (some t) = some r → r.species_counts ≠ []) ∧
    (parse_ldwf_pdf (some t1) = some r1 →
      r1.species_counts ≠ [] ∧ ∀ kv ∈ r1.species_counts, 0 ≤ kv.2) ∧
    (parse_loess_bluffs_pdf (some t2) = some r2 →
      r2.species_counts ≠ [] ∧ ∀ kv ∈ r2.species_counts, 0 ≤ kv.2) := by
  refine ⟨?_, ?_, ?_⟩
  · intro h
    exact (agfc_some_shape h).1
  · intro h
    refine ⟨(ldwf_some_shape h).1, ?_⟩
    intro kv hkv
    exact le_of_lt ((ldwf_some_shape h).2.2.2 kv hkv).2
  · intro h
    refine ⟨(loess_some_shape h).1, ?_⟩
    intro kv hkv
    exact le_of_lt ((loess_some_shape h).2.2 kv hkv)

set_option maxRecDepth 400000 in
/-- Witness for C3 at inputs where the parsers succeed. -/
theorem c3_validation_in_parsers_witness :
    (([("Mallard", (6000 : Int))] : List (String × Int)) ≠ [] ∧
      ∀ kv ∈ [(("Mallard" : String), (6000 : Int))], (0 : Int) ≤ kv.2) ∧
    (([("Total Ducks", (5000 : Int))] : List (String × Int)) ≠ [] ∧
      ∀ kv ∈ [(("Total Ducks" : String), (5000 : Int))], (0 : Int) ≤ kv.2) :=
  ⟨(c3_validation_in_parsers [] ldwfDemoText loessAggText
      ⟨"", [], none, none, ""⟩
      ⟨"2026-01-15", [("Mallard", 6000)], none, none, "aerial_monthly"⟩
      ⟨"2026-01-06", [("Total Ducks", 5000)], none, none, "weekly"⟩).2.1 (by decide),
   (c3_validation_in_parsers [] ldwfDemoText loessAggText
      ⟨"", [], none, none, ""⟩
      ⟨"2026-01-15", [("Mallard", 6000)], none, none, "aerial_monthly"⟩
      ⟨"2026-01-06", [("Total Ducks", 5000)], none, none, "weekly"⟩).2.2 (by decide)⟩

/-! ## Claim C4 -/

/-- C4 counterexample: the LLM validation stage accepts a species name
found in no table and a negative integer count — it does not re-validate
against the invariants of the regex parsers. -/
theorem c4_counterexample :
    extract_bird_counts_from_text llmDemoText (some llmBadData) =
      some { survey_date := "2026-01-15",
             species_counts := [("Fabricated Bird", -5)], observers := none } ∧
    resolve_species_slug ("Fabricated Bird") = none := by
  constructor
  · decide
  · decide

/-- C4 amended: the validation stage enforces only output shape — a
successful result has a nonempty coerced count mapping with nonempty
species names and a calendar-valid Y-m-d date string, and any payload
failing these checks is discarded (none) with no retry — but species
names are not checked against the taxonomy and negative integers pass
the coercion. -/
theorem c4_llm_validation (t : List Char) (resp : Option LlmData) (r : LlmResult)
    (h : extract_bird_counts_from_text t resp = some r) :
    r.species_counts ≠ [] ∧
    (pyStrptimeDate ("%Y-%m-%d") r.survey_date.toList).isSome = true ∧
    ∀ kv ∈ r.species_counts, kv.1 ≠ "" :=
  llm_some_shape h

/-- Witness for C4 at a payload the validator accepts. -/
theorem c4_llm_validation_witness :
    (([("Mallard", (500 : Int))] : List (String × Int)) ≠ [] ∧
      (pyStrptimeDate ("%Y-%m-%d")
        (("2026-01-15" : String)).toList).isSome = true ∧
      ∀ kv ∈ [(("Mallard" : String), (500 : Int))], kv.1 ≠ "") :=
  c4_llm_validation llmDemoText (some llmGoodData)
    { survey_date := "2026-01-15", species_counts := [("Mallard", 500)],
      observers := none } (by decide)

/-! ## Claim C5 -/

/-- C5: the resolver tries the alias table first (keyed by the
lowercased stripped input), falls through to the case-sensitive source
tables (MWI before refuge) only on a miss, never returns a slug outside
the three tables' values, and returns none when no table matches. -/
theorem c5_resolver_order (n1 n2 n3 n4 n5 : String) (slug v s : String) :
    (tblFind SPECIES_ALIASES (⟨pyLower (pyStrip n1.toList)⟩ : String) = some slug →
      resolve_species_slug n1 = some slug) ∧
    (tblFind SPECIES_ALIASES (⟨pyLower (pyStrip n2.toList)⟩ : String) = none →
      resolve_species_slug n2 = resolve_source_tables n2) ∧
    (tblFind MWI_COLUMN_MAPPING (⟨pyStrip n3.toList⟩ : String) = some (some v) →
      resolve_source_tables n3 = some v) ∧
    (resolve_species_slug n4 = some s →
      s ∈ aliasVals ∨ s ∈ mwiVals ∨ s ∈ refugeVals) ∧
    (tblFind SPECIES_ALIASES (⟨pyLower (pyStrip n5.toList)⟩ : String) = none →
     tblFind MWI_COLUMN_MAPPING (⟨pyStrip n5.toList⟩ : String) = none →
     tblFind REFUGE_SURVEY_MAPPING (⟨pyStrip n5.toList⟩ : String) = none →
      resolve_species_slug n5 = none) :=
  ⟨resolve_alias_hit, resolve_alias_miss, resolve_mwi_first, resolve_closure,
   fun h1 h2 h3 => resolve_total_miss h1 h2 h3⟩

/-- Witness for C5 at concrete names exercising every clause. -/
theorem c5_resolver_order_witness :
    resolve_species_slug ("Mallard") = some ("mallard") ∧
    resolve_species_slug ("American Coot") = resolve_source_tables ("American Coot") ∧
    resolve_source_tables ("Green-winged Teal") = some ("green-winged-teal") ∧
    (("mallard" : String) ∈ aliasVals ∨ ("mallard" : String) ∈ mwiVals ∨
      ("mallard" : String) ∈ refugeVals) ∧
    resolve_species_slug ("Glossy Ibis") = none :=
  ⟨(c5_resolver_order "Mallard" "x" "x" "x" "x" "mallard" "x" "x").1 (by decide),
   (c5_resolver_order "x" "American Coot" "x" "x" "x" "x" "x" "x").2.1 (by decide),
   (c5_resolver_order "x" "x" "Green-winged Teal" "x" "x" "x" "green-winged-teal" "x").2.2.1
     (by decide),
   (c5_resolver_order "x" "x" "x" "Mallard" "x" "x" "x" "mallard").2.2.2.1 (by decide),
   (c5_resolver_order "x" "x" "x" "x" "Glossy Ibis" "x" "x" "x").2.2.2.2
     (by decide) (by decide) (by decide)⟩

end Huntstack

namespace Huntstack

/-! ## Claim C6 -/

set_option maxRecDepth 400000 in
/-- C6: the AGFC date normalizer resolves the range expression spanning
January 19 to 23, 2026 (written with the ASCII hyphen the PDF text
extraction produces, as in the source's own pattern comment) to the
later date 2026-01-23. -/
theorem c6_range_end_date :
    parse_agfc_date (("January 19-23, 2026").toList) = some ("2026-01-23") := by
  decide

/-! ## Claim C7 -/

set_option maxRecDepth 400000 in
/-- C7 counterexample: on the specification's line pair the LDWF parser
does capture the last numeric value 6000, but under the display-name
key Mallard — the slug key mallard claimed by the specification is not
a key of the emitted mapping; slug resolution happens downstream. -/
theorem c7_counterexample :
    (parse_ldwf_pdf (some ldwfDemoText)).map
      (fun r => tblFind r.species_counts ("mallard")) = some none := by
  decide

set_option maxRecDepth 400000 in
/-- C7 amended: the line pair 2,000 2,000 2,000 6,000 followed by
MALLARD yields the single species count Mallard maps-to 6000 — the last
(rightmost) numeric value of the adjacent numeric line, the cross-region
total, is the only value retained — and the species resolver then maps
the display name Mallard to the slug mallard. -/
theorem c7_tabular_total :
    parse_ldwf_pdf (some ldwfDemoText) =
      some { survey_date := "2026-01-15", species_counts := [("Mallard", 6000)],
             observers := none, notes := none, survey_type := "aerial_monthly" } ∧
    resolve_species_slug ("Mallard") = some ("mallard") := by
  constructor
  · decide
  · decide

/-! ## Claim C8 -/

set_option maxRecDepth 400000 in
/-- C8 counterexample: the wide-HTML-table parser emits the record for
2022-10-03 with the display-name key Mallard, not the slug key mallard
claimed by the specification; slug resolution happens downstream. -/
theorem c8_counterexample :
    (parse_clarence_cannon_html ccDemoRows).map
      (fun r => tblFind r.species_counts ("mallard")) = [none] := by
  decide

set_option maxRecDepth 400000 in
/-- C8 amended: the example table yields exactly one record, for
2022-10-03, with Mallard maps-to 150; the zero cell of the 10/11/22
column produces no entry and hence no record for that column; and the
species resolver then maps Mallard to the slug mallard. -/
theorem c8_wide_table :
    parse_clarence_cannon_html ccDemoRows =
      [{ survey_date := "2022-10-03", species_counts := [("Mallard", 150)],
         observers := none, notes := none, survey_type := "weekly" }] ∧
    resolve_species_slug ("Mallard") = some ("mallard") := by
  constructor
  · decide
  · decide

/-! ## Claim C9 -/

set_option maxRecDepth 400000 in
/-- C9 counterexample: the same workbook — a structurally unambiguous
per-sheet yearly layout with its YEAR STATE TOTALS marker — parses to
nothing under a file name containing estimates but to a full record
under a neutral file name: detection is by file name first, not by
structural hints alone. -/
theorem c9_counterexample :
    parse_tpwd_excel tpwdDemoWb ("mw_estimates_97-18.xls") = [] ∧
    parse_tpwd_excel tpwdDemoWb ("mws-download.xls") =
      [{ survey_date := "2018-01-15", species_counts := [("mallard", 500)],
         observers := none, notes := none, survey_type := "annual_midwinter" }] := by
  constructor
  · decide
  · decide

/-- C9 amended: parse_tpwd_excel dispatches on the lowercased file name
— an estimates name forces the historical layout and a summary name the
per-sheet layout — and only a file name matching neither falls back to
structural detection (the per-sheet layout first, then the historical
layout, which itself requires the known State Wide estimates sheet
name). -/
theorem c9_dispatch (wb wb2 : Workbook) (f g : String) :
    (strContains (pyLower f.toList) (("estimates").toList) = true →
      parse_tpwd_excel wb f = _parse_historical wb) ∧
    (strContains (pyLower g.toList) (("estimates_97").toList) = false →
     strContains (pyLower g.toList) (("estimates").toList) = false →
     strContains (pyLower g.toList) (("yearly-summary").toList) = false →
     strContains (pyLower g.toList) (("yearly_summary").toList) = false →
     strContains (pyLower g.toList) (("summary").toList) = false →
      parse_tpwd_excel wb g =
        (if _parse_yearly_summary wb = [] then _parse_historical wb
         else _parse_yearly_summary wb)) ∧
    (wbGet wb2 ("State Wide estimates") = none → _parse_historical wb2 = []) :=
  ⟨tpwd_fname_estimates,
   fun h1 h2 h3 h4 h5 => tpwd_fname_unknown h1 h2 h3 h4 h5,
   tpwd_historical_needs_sheet⟩

set_option maxRecDepth 400000 in
/-- Witness for C9 at the demonstration workbook and file names. -/
theorem c9_dispatch_witness :
    parse_tpwd_excel tpwdDemoWb ("mw_estimates_97-18.xls") =
      _parse_historical tpwdDemoWb ∧
    parse_tpwd_excel tpwdDemoWb ("mws-download.xls") =
      (if _parse_yearly_summary tpwdDemoWb = [] then _parse_historical tpwdDemoWb
       else _parse_yearly_summary tpwdDemoWb) ∧
    _parse_historical tpwdDemoWb = [] :=
  ⟨(c9_dispatch tpwdDemoWb tpwdDemoWb "mw_estimates_97-18.xls" "x").1 (by decide),
   (c9_dispatch tpwdDemoWb tpwdDemoWb "x" "mws-download.xls").2.1
     (by decide) (by decide) (by decide) (by decide) (by decide),
   (c9_dispatch tpwdDemoWb tpwdDemoWb "x" "x").2.2 (by decide)⟩

/-! ## Claim C10 -/

set_option maxRecDepth 400000 in
/-- C10 counterexample: the Clarence Cannon parser drops only missing
and zero cells — a negative numeric cell is retained, so an emitted
record can carry a negative count, refuting strict positivity across
all the regex parsers. -/
theorem c10_counterexample :
    parse_clarence_cannon_html ccNegRows =
      [{ survey_date := "2022-10-03", species_counts := [("Mallard", -5)],
         observers := none, notes := none, survey_type := "weekly" }] ∧
    ((-5 : Int) < 0) := by
  constructor
  · decide
  · decide

/-- C10 amended: the LDWF and Loess Bluffs parsers and the shared
HTML-table extractor emit strictly positive counts (zero, blank and
non-numeric cells are dropped); the Clarence Cannon parser guarantees
only nonzero counts, because its cell filter drops None and 0 but lets
negative numeric cells through. -/
theorem c10_positive_counts (t1 t2 : List Char) (r1 r2 : ParseResult)
    (tables : List (List (List String))) (rows : List (List String)) :
    (parse_ldwf_pdf (some t1) = some r1 → ∀ kv ∈ r1.species_counts, 0 < kv.2) ∧
    (parse_loess_bluffs_pdf (some t2) = some r2 → ∀ kv ∈ r2.species_counts, 0 < kv.2) ∧
    (∀ kv ∈ extract_table_counts tables, 0 < kv.2) ∧
    (∀ rec ∈ parse_clarence_cannon_html rows, ∀ kv ∈ rec.species_counts, kv.2 ≠ 0) := by
  refine ⟨?_, ?_, ?_, ?_⟩
  · intro h kv hkv
    exact ((ldwf_some_shape h).2.2.2 kv hkv).2
  · intro h kv hkv
    exact (loess_some_shape h).2.2 kv hkv
  · intro kv hkv
    exact (extract_table_counts_inv tables kv hkv).1
  · intro rec hrec kv hkv
    exact (cc_records_shape rows rec hrec kv hkv).1

set_option maxRecDepth 400000 in
/-- Witness for C10 at inputs where the parsers succeed. -/
theorem c10_positive_counts_witness :
    (∀ kv ∈ [(("Mallard" : String), (6000 : Int))], (0 : Int) < kv.2) ∧
    (∀ kv ∈ [(("Total Ducks" : String), (5000 : Int))], (0 : Int) < kv.2) ∧
    (∀ kv ∈ extract_table_counts etcDemoTables, (0 : Int) < kv.2) ∧
    (∀ rec ∈ parse_clarence_cannon_html ccDemoRows,
      ∀ kv ∈ rec.species_counts, kv.2 ≠ 0) :=
  ⟨(c10_positive_counts ldwfDemoText loessAggText
      ⟨"2026-01-15", [("Mallard", 6000)], none, none, "aerial_monthly"⟩
      ⟨"2026-01-06", [("Total Ducks", 5000)], none, none, "weekly"⟩
      etcDemoTables ccDemoRows).1 (by decide),
   (c10_positive_counts ldwfDemoText loessAggText
      ⟨"2026-01-15", [("Mallard", 6000)], none, none, "aerial_monthly"⟩
      ⟨"2026-01-06", [("Total Ducks", 5000)], none, none, "weekly"⟩
      etcDemoTables ccDemoRows).2.1 (by decide),
   (c10_positive_counts ldwfDemoText loessAggText
      ⟨"2026-01-15", [("Mallard", 6000)], none, none, "aerial_monthly"⟩
      ⟨"2026-01-06", [("Total Ducks", 5000)], none, none, "weekly"⟩
      etcDemoTables ccDemoRows).2.2.1,
   (c10_positive_counts ldwfDemoText loessAggText
      ⟨"2026-01-15", [("Mallard", 6000)], none, none, "aerial_monthly"⟩
      ⟨"2026-01-06", [("Total Ducks", 5000)], none, none, "weekly"⟩
      etcDemoTables ccDemoRows).2.2.2⟩

end Huntstack
